import Mathlib

/-!
Verification development for the `mcp-proxy-server` repository: a shallow
embedding of the transport codec (zod schemas), the process supervisor, the
session registry, the proxy core and the HTTP front-end, together with
theorems about the behaviour of the embedded operations.

JSON values are modelled by the inductive `JValue`; JavaScript objects are
association lists of fields produced by `JSON.parse` (hence without duplicate
keys).  Machine state shared by the components is collected in one `World`
structure and every effectful operation is a pure function on `World`.
-/

namespace MCPProxy

/-- A decoded JSON value (`JSON.parse` output).  Numbers are modelled as
integers; every numeric literal appearing in the repository's protocol data is
integral. -/
inductive JValue where
  | null : JValue
  | bool : Bool → JValue
  | num : Int → JValue
  | str : String → JValue
  | arr : List JValue → JValue
  | obj : List (String × JValue) → JValue

/-- Structural equality of JSON values (JavaScript deep equality on parsed
JSON data; used where the source compares primitive values with `===`). -/
def JValue.beq : JValue → JValue → Bool
  | .null, .null => true
  | .bool a, .bool b => a == b
  | .num a, .num b => a == b
  | .str a, .str b => a == b
  | .arr as, .arr bs => beqList as bs
  | .obj as, .obj bs => beqFields as bs
  | _, _ => false
where
  beqList : List JValue → List JValue → Bool
    | [], [] => true
    | a :: as, b :: bs => beq a b && beqList as bs
    | _, _ => false
  beqFields : List (String × JValue) → List (String × JValue) → Bool
    | [], [] => true
    | (k, a) :: as, (l, b) :: bs => k == l && beq a b && beqFields as bs
    | _, _ => false

instance : BEq JValue := ⟨JValue.beq⟩

/-- Field lookup on a JavaScript object: `v[k]`, `undefined` mapped to
`none`.  Non-objects have no (string-keyed, non-index) fields. -/
def getField (v : JValue) (k : String) : Option JValue :=
  match v with
  | .obj fs => fs.lookup k
  | _ => none

/-- The JavaScript `'k' in v` check for the object shapes the repository
inspects (string keys on plain objects; arrays and primitives have none). -/
def hasField (v : JValue) (k : String) : Bool :=
  (getField v k).isSome

/-- JavaScript truthiness, `Boolean(v)`, for a defined value. -/
def JValue.truthy : JValue → Bool
  | .null => false
  | .bool b => b
  | .num n => n != 0
  | .str s => s != ""
  | .arr _ => true
  | .obj _ => true

/-- JavaScript truthiness of a possibly-`undefined` value:
`Boolean(undefined) = false`. -/
def truthyOpt : Option JValue → Bool
  | none => false
  | some v => v.truthy

/-- `typeof v === 'object' && v !== null` (arrays are objects in
JavaScript). -/
def isObjectLike : JValue → Bool
  | .obj _ => true
  | .arr _ => true
  | _ => false

/-! ### Transport codec: the zod schemas of `src/validation/schemas.ts`

Each zod schema is embedded as its acceptance predicate on a decoded JSON
value.  zod objects are non-strict: unknown keys are tolerated. -/

/-- `JSONRPCIdSchema = z.union([z.string(), z.number(), z.null()])`. -/
def JSONRPCIdSchema : JValue → Bool
  | .str _ => true
  | .num _ => true
  | .null => true
  | _ => false

/-- Acceptance of an optional field: absent, or present and accepted. -/
def optionalField (p : JValue → Bool) : Option JValue → Bool
  | none => true
  | some v => p v

/-- `JSONRPCErrorSchema`: object with numeric `code`, string `message`,
optional `data`. -/
def JSONRPCErrorSchema (v : JValue) : Bool :=
  match v with
  | .obj _ =>
    (match getField v "code" with | some (.num _) => true | _ => false) &&
    (match getField v "message" with | some (.str _) => true | _ => false)
  | _ => false

/-- `JSONRPCRequestSchema`: `jsonrpc: "2.0"`, optional id, string `method`,
optional `params`. -/
def JSONRPCRequestSchema (v : JValue) : Bool :=
  match v with
  | .obj _ =>
    (getField v "jsonrpc" == some (.str "2.0")) &&
    optionalField JSONRPCIdSchema (getField v "id") &&
    (match getField v "method" with | some (.str _) => true | _ => false)
  | _ => false

/-- `JSONRPCResponseSchema`: `jsonrpc: "2.0"`, required id, optional
`result`, optional `error`, refined by
`Boolean(data.result) !== Boolean(data.error)` — note JavaScript truthiness,
not presence. -/
def JSONRPCResponseSchema (v : JValue) : Bool :=
  match v with
  | .obj _ =>
    (getField v "jsonrpc" == some (.str "2.0")) &&
    (match getField v "id" with | some i => JSONRPCIdSchema i | none => false) &&
    optionalField JSONRPCErrorSchema (getField v "error") &&
    (truthyOpt (getField v "result") != truthyOpt (getField v "error"))
  | _ => false

/-- `JSONRPCNotificationSchema`: `jsonrpc: "2.0"`, string `method`, optional
`params`. -/
def JSONRPCNotificationSchema (v : JValue) : Bool :=
  match v with
  | .obj _ =>
    (getField v "jsonrpc" == some (.str "2.0")) &&
    (match getField v "method" with | some (.str _) => true | _ => false)
  | _ => false

/-- `JSONRPCBatchSchema = z.array(z.union([Request, Notification])).min(1)`. -/
def JSONRPCBatchSchema (v : JValue) : Bool :=
  match v with
  | .arr xs =>
    !xs.isEmpty && xs.all (fun x => JSONRPCRequestSchema x || JSONRPCNotificationSchema x)
  | _ => false

/-- `JSONRPCMessageSchema`: union of request, response, notification and
batch. -/
def JSONRPCMessageSchema (v : JValue) : Bool :=
  JSONRPCRequestSchema v || JSONRPCResponseSchema v ||
  JSONRPCNotificationSchema v || JSONRPCBatchSchema v

/-! ### Data model (`src/types/index.ts`) and shared machine state -/

/-- `ServerConfig`: static description of one MCP subprocess. -/
structure ServerConfig where
  name : String
  command : String
  args : List String
  env : List (String × String) := []
  cwd : Option String := none
  endpoint : Option String := none

/-- `ManagedProcess` state: lifecycle status of a supervised child. -/
inductive ProcStatus where
  | stopped
  | running
  | crashed

/-- The observable state of one `ManagedProcess` object.  `hasProcess` is
`this.process !== undefined`; `stdinPiped` records that the child was spawned
with `stdio: ['pipe','pipe','pipe']`, so `this.process.stdin` exists;
`stdinWrites` is the sequence of chunks written to the child's stdin. -/
structure ProcHandle where
  status : ProcStatus
  hasProcess : Bool
  stdinPiped : Bool
  stdinWrites : List String
  restarts : Nat
  config : ServerConfig

/-- A `Session` record (`src/types/index.ts`).  SSE connections (`Response`
objects) are identified by stream numbers; times are milliseconds. -/
structure SessionData where
  id : String
  createdAt : Nat
  lastActivityAt : Nat
  serverConfig : ServerConfig
  stdioProcessId : Option String
  messageQueue : List JValue
  isInitialized : Bool
  sseConnections : List Nat

/-- Which `StreamableHTTPTransport` instance performed an SSE write: the
`HTTPServer` constructs its own transport, separate from the
`MCPProxyServer`'s, and each instance carries its own `eventCounter`. -/
inductive CounterSrc where
  | http
  | proxy
deriving BEq, DecidableEq

/-- One SSE event written to a stream by
`StreamableHTTPTransport.sendSSEMessage`: the event id is
`String(++this.eventCounter)` of the writing transport instance (kept here as
the counter value), the payload is the JSON-RPC message.  `src` is ghost
observability recording which transport instance performed the write. -/
structure SSEWrite where
  stream : Nat
  src : CounterSrc
  eid : Nat
  data : JValue

/-- The composed mutable state of `SessionManager`, `ProcessManager`, the two
`StreamableHTTPTransport` instances and the ambient clock.  `procObjects`
stores every `ManagedProcess` object ever created (JavaScript references keep
objects alive); `activeProcessIds` is the key set of
`ProcessManager.processes`.  `closedStreams` and `killedProcesses` record,
in order, `response.end()` calls on SSE streams and SIGTERM deliveries. -/
structure World where
  sessions : List (String × SessionData)
  activeProcessIds : List String
  procObjects : List (String × ProcHandle)
  restartAttempts : List (String × Nat)
  serverConfigs : List (String × ServerConfig)
  proxyCounter : Nat
  httpCounter : Nat
  sseWrites : List SSEWrite
  closedStreams : List Nat
  killedProcesses : List String
  freshCounter : Nat
  now : Nat
  sessionTimeout : Nat
  maxSessions : Nat

/-- `Map.set k v` on an association list: replace in place if the key is
bound, otherwise append (JavaScript `Map` insertion-order semantics). -/
def setKey {α : Type} (l : List (String × α)) (k : String) (v : α) :
    List (String × α) :=
  if l.any (fun p => p.1 == k) then
    l.map (fun p => if p.1 == k then (k, v) else p)
  else
    l ++ [(k, v)]

/-- `Map.delete k` on an association list.  `Map` keys are unique, so
deletion is removal of every pair with that key. -/
def eraseKey {α : Type} (l : List (String × α)) (k : String) :
    List (String × α) :=
  l.filter (fun p => p.1 != k)

/-! ### Process supervisor (`src/process/manager.ts`) -/

/-- `ManagedProcess.sendToStdin`: reject unless a child exists and the handle
is `running`; reject if stdin is not piped; otherwise write the chunk and, if
it does not already end with a newline, write a `"\n"` chunk. -/
def ManagedProcess.sendToStdin (h : ProcHandle) (data : String) :
    Except String ProcHandle :=
  match h.hasProcess, h.status with
  | true, .running =>
    if !h.stdinPiped then .error "Process stdin is not available"
    else .ok { h with stdinWrites :=
      h.stdinWrites ++ [data] ++ (if data.endsWith "\n" then [] else ["\n"]) }
  | _, _ => .error "Process is not running"

/-- `ManagedProcess.kill`: send SIGTERM and mark `stopped`, but only when a
child exists and the handle is `running`. -/
def ManagedProcess.kill (w : World) (pid : String) (h : ProcHandle) : World :=
  match h.hasProcess, h.status with
  | true, .running =>
    { w with procObjects := setKey w.procObjects pid { h with status := .stopped },
             killedProcesses := w.killedProcesses ++ [pid] }
  | _, _ => w

/-- `ProcessManager.killProcess`: warn and return when the id is not in the
active map; otherwise kill the object and delete the map and restart-counter
entries. -/
def ProcessManager.killProcess (w : World) (pid : String) : World :=
  if !(w.activeProcessIds.contains pid) then w
  else
    let w :=
      match w.procObjects.lookup pid with
      | some h => ManagedProcess.kill w pid h
      | none => w
    { w with activeProcessIds := w.activeProcessIds.filter (fun q => q != pid),
             restartAttempts := eraseKey w.restartAttempts pid }

/-! ### Session registry (`src/session/manager.ts`) and its coupling to the
proxy core's event handlers (`src/proxy/server.ts`)

`SessionManager.destroySession` synchronously emits `session:destroyed`,
whose handler in `MCPProxyServer.setupEventHandlers` calls
`SessionManager.getSession`, which can itself evict an expired session via
`destroySession`.  The dynamic call chain always bottoms out after one round
(the handler looks up a session that was just deleted), but the textual
recursion is broken here by a layer index: `smOps (n+1)` builds the three
operations from the `n`-layer ones, and the public operations use a layer
deep enough that the fallback of layer 0 is unreachable. -/

/-- `isSessionExpired`: with a non-positive timeout nothing expires;
otherwise expired iff `now - lastActivityAt > sessionTimeout`. -/
def isSessionExpired (w : World) (s : SessionData) : Bool :=
  if w.sessionTimeout = 0 then false
  else decide (w.sessionTimeout < w.now - s.lastActivityAt)

/-- The three mutually-reentrant session operations. -/
structure SMOps where
  destroySession : World → String → World
  getSession : World → String → Option SessionData × World
  onSessionDestroyed : World → String → World

/-- Layer 0: unreachable fallbacks (the dynamic re-entry depth of the
event-emitter cycle is bounded; see `smOps`). -/
def smOpsZero : SMOps where
  destroySession := fun w _ => w
  getSession := fun w _ => (none, w)
  onSessionDestroyed := fun w _ => w

/-- `SessionManager.destroySession` (manager.ts:179–202), parameterised by
the `session:destroyed` handler of the layer below: if the id is bound,
`end()` every attached SSE connection, clear the connection set, delete the
map entry and emit `session:destroyed`. -/
def destroyAux (handler : World → String → World) (w : World) (sid : String) :
    World :=
  match w.sessions.lookup sid with
  | none => w
  | some s =>
    let w := { w with closedStreams := w.closedStreams ++ s.sseConnections }
    let w := { w with sessions := setKey w.sessions sid { s with sseConnections := [] } }
    let w := { w with sessions := eraseKey w.sessions sid }
    handler w sid

/-- `SessionManager.getSession` (manager.ts:83–98): on a hit, evict-and-miss
if expired, otherwise refresh `lastActivityAt` and return the (mutated)
session. -/
def getAux (handler : World → String → World) (w : World) (sid : String) :
    Option SessionData × World :=
  match w.sessions.lookup sid with
  | none => (none, w)
  | some s =>
    if isSessionExpired w s then (none, destroyAux handler w sid)
    else
      (some { s with lastActivityAt := w.now },
       { w with sessions := setKey w.sessions sid { s with lastActivityAt := w.now } })

/-- The proxy core's `session:destroyed` handler
(`MCPProxyServer.setupEventHandlers`): look the session up again through
`getSession` and kill its bound process if one is attached. -/
def onDestroyedAux (handler : World → String → World) (w : World)
    (sid : String) : World :=
  match getAux handler w sid with
  | (some s, w') =>
    match s.stdioProcessId with
    | some pid => ProcessManager.killProcess w' pid
    | none => w'
  | (none, w') => w'

/-- Layer `n+1` from layer `n`. -/
def smOpsSucc (prev : SMOps) : SMOps where
  destroySession := destroyAux prev.onSessionDestroyed
  getSession := getAux prev.onSessionDestroyed
  onSessionDestroyed := onDestroyedAux prev.onSessionDestroyed

/-- The operation tower.  Every cycle through
`destroy → emit → handler → getSession → destroy` descends one layer. -/
def smOps : Nat → SMOps
  | 0 => smOpsZero
  | n + 1 => smOpsSucc (smOps n)

/-- `SessionManager.destroySession` (public entry; the dynamic re-entry
depth is at most one round, so layer 2 suffices and the layer-0 fallback is
never reached, see `smOps_onSessionDestroyed_absent`). -/
def SessionManager.destroySession (w : World) (sid : String) : World :=
  (smOps 2).destroySession w sid

/-- `SessionManager.getSession`. -/
def SessionManager.getSession (w : World) (sid : String) :
    Option SessionData × World :=
  (smOps 2).getSession w sid

/-- `SessionManager.hasSession` (plain map membership, no expiry check). -/
def SessionManager.hasSession (w : World) (sid : String) : Bool :=
  (w.sessions.lookup sid).isSome

/-- `SessionManager.setSessionInitialized`. -/
def SessionManager.setSessionInitialized (w : World) (sid : String) : World :=
  match w.sessions.lookup sid with
  | some s => { w with sessions := setKey w.sessions sid { s with isInitialized := true } }
  | none => w

/-- `SessionManager.attachProcess`. -/
def SessionManager.attachProcess (w : World) (sid : String) (pid : String) :
    World :=
  match w.sessions.lookup sid with
  | some s => { w with sessions := setKey w.sessions sid { s with stdioProcessId := some pid } }
  | none => w

/-- `SessionManager.queueMessage`: pushed only when the value is a non-null
object (`typeof message === 'object' && message !== null`). -/
def SessionManager.queueMessage (w : World) (sid : String) (msg : JValue) :
    World :=
  match w.sessions.lookup sid with
  | some s =>
    if isObjectLike msg then
      { w with sessions := setKey w.sessions sid { s with messageQueue := s.messageQueue ++ [msg] } }
    else w
  | none => w

/-- `SessionManager.dequeueMessages`: take the whole queue, leaving it
empty. -/
def SessionManager.dequeueMessages (w : World) (sid : String) :
    List JValue × World :=
  match w.sessions.lookup sid with
  | some s =>
    (s.messageQueue, { w with sessions := setKey w.sessions sid { s with messageQueue := [] } })
  | none => ([], w)

/-- `SessionManager.addSSEConnection`: `Set.add` of the response object (the
close-hook that removes the sink on client disconnect fires only on a later
disconnect event and is not part of this operation). -/
def SessionManager.addSSEConnection (w : World) (sid : String) (stream : Nat) :
    World :=
  match w.sessions.lookup sid with
  | some s =>
    if s.sseConnections.contains stream then w
    else
      { w with sessions := setKey w.sessions sid { s with sseConnections := s.sseConnections ++ [stream] } }
  | none => w

/-- `SessionManager.getActiveSSEConnections`. -/
def SessionManager.getActiveSSEConnections (w : World) (sid : String) :
    List Nat :=
  match w.sessions.lookup sid with
  | some s => s.sseConnections
  | none => []

/-- `MCPProxyServer.handleSessionExpired` (the `session:expired` handler):
look the session up and kill its process if one is attached. -/
def MCPProxyServer.handleSessionExpired (w : World) (sid : String) : World :=
  match SessionManager.getSession w sid with
  | (some s, w') =>
    match s.stdioProcessId with
    | some pid => ProcessManager.killProcess w' pid
    | none => w'
  | (none, w') => w'

/-- `SessionManager.cleanupExpiredSessions`: collect the ids of expired
sessions, then, for each, emit `session:expired` (running the proxy core's
handler) and destroy it. -/
def SessionManager.cleanupExpiredSessions (w : World) : World :=
  let expired := (w.sessions.filter (fun p => isSessionExpired w p.2)).map Prod.fst
  expired.foldl
    (fun w' sid => SessionManager.destroySession (MCPProxyServer.handleSessionExpired w' sid) sid) w

/-- The body shared by both arms of `createSession`: allocate a fresh id
(`randomUUID`, modelled by a fresh-name counter), insert the new record, emit
`session:created` (no subscriber in the proxy core). -/
def SessionManager.mkSession (w : World) (cfg : ServerConfig)
    (pid? : Option String) : Except String String × World :=
  let sid := "uuid-" ++ toString w.freshCounter
  let s : SessionData :=
    { id := sid, createdAt := w.now, lastActivityAt := w.now,
      serverConfig := cfg, stdioProcessId := pid?, messageQueue := [],
      isInitialized := false, sseConnections := [] }
  (.ok sid, { w with sessions := setKey w.sessions sid s,
                     freshCounter := w.freshCounter + 1 })

/-- `SessionManager.createSession` (manager.ts:46–81): when the session count
has reached `maxSessions`, first sweep expired sessions, then fail if the
count is still at the limit; otherwise create the session. -/
def SessionManager.createSession (w : World) (cfg : ServerConfig)
    (pid? : Option String) : Except String String × World :=
  if w.maxSessions ≤ w.sessions.length then
    let w' := SessionManager.cleanupExpiredSessions w
    if w'.maxSessions ≤ w'.sessions.length then
      (.error ("Maximum session limit (" ++ toString w'.maxSessions ++ ") reached"), w')
    else SessionManager.mkSession w' cfg pid?
  else SessionManager.mkSession w cfg pid?

/-! ### Transport codec (`src/transport/streamable-http.ts`) -/

/-- `JSON.stringify` for the modelled value space (enough escaping for the
characters the repository's protocol data can contain). -/
def escapeJChar (c : Char) : String :=
  if c = '"' then "\\\""
  else if c = '\\' then "\\\\"
  else if c = '\n' then "\\n"
  else String.singleton c

/-- JSON serialisation of a string literal. -/
def escapeJString (s : String) : String :=
  "\"" ++ String.join (s.data.map escapeJChar) ++ "\""

/-- `JSON.stringify`. -/
def JValue.stringify : JValue → String
  | .null => "null"
  | .bool true => "true"
  | .bool false => "false"
  | .num n => toString n
  | .str s => escapeJString s
  | .arr xs => "[" ++ String.intercalate "," (stringifyList xs) ++ "]"
  | .obj fs => "\x7b" ++ String.intercalate "," (stringifyFields fs) ++ "\x7d"
where
  stringifyList : List JValue → List String
    | [] => []
    | x :: xs => stringify x :: stringifyList xs
  stringifyFields : List (String × JValue) → List String
    | [] => []
    | (k, v) :: fs => (escapeJString k ++ ":" ++ stringify v) :: stringifyFields fs

/-- Character-list prefix test (helper for the JavaScript
`String.prototype.includes`). -/
def leadsWith : List Char → List Char → Bool
  | [], _ => true
  | _ :: _, [] => false
  | a :: as, b :: bs => a == b && leadsWith as bs

/-- Character-list containment (helper for `includes`). -/
def containsChars (needle : List Char) : List Char → Bool
  | [] => needle.isEmpty
  | c :: rest => leadsWith needle (c :: rest) || containsChars needle rest

/-- JavaScript `hay.includes(needle)`. -/
def jsIncludes (hay needle : String) : Bool :=
  containsChars needle.data hay.data

/-- `StreamableHTTPTransport.parseRequest`: validate the decoded body against
`JSONRPCMessageSchema`, returning `null` on schema failure. -/
def StreamableHTTPTransport.parseRequest (body : JValue) : Option JValue :=
  if JSONRPCMessageSchema body then some body else none

/-- `StreamableHTTPTransport.requiresResponse`:
`'id' in message && message.id !== null && message.id !== undefined`. -/
def StreamableHTTPTransport.requiresResponse (msg : JValue) : Bool :=
  match getField msg "id" with
  | some .null => false
  | some _ => true
  | none => false

/-- `StreamableHTTPTransport.isInitializeRequest`:
a non-null object whose `method` is `'initialize'`. -/
def StreamableHTTPTransport.isInitializeRequest (msg : JValue) : Bool :=
  isObjectLike msg && (getField msg "method" == some (.str "initialize"))

/-- `MCPProxyServer.isResponseFor`: an object carrying `id` strictly equal to
the request's `id` and at least one of `result`/`error`. -/
def MCPProxyServer.isResponseFor (msg req : JValue) : Bool :=
  isObjectLike msg && hasField msg "id" &&
  (getField msg "id" == getField req "id") &&
  (hasField msg "result" || hasField msg "error")

/-- `MCPProxyServer.isInitializeResponse`:
`'result' in message && typeof result === 'object' && 'serverInfo' in result`.
A `result: null` makes the JavaScript `'serverInfo' in null` throw a
`TypeError` (swallowed by `handleProcessOutput`'s catch); that outcome is
`none`. -/
def MCPProxyServer.isInitializeResponseCheck (msg : JValue) : Option Bool :=
  if isObjectLike msg && hasField msg "result" then
    match getField msg "result" with
    | some (.obj fs) => some (hasField (.obj fs) "serverInfo")
    | some (.arr _) => some false
    | some .null => none
    | _ => some false
  else some false

/-- `createJSONRPCError` (schemas.ts): `code`/`message`, optional `data`. -/
def createJSONRPCError (code : Int) (message : String) (data : Option JValue) :
    JValue :=
  .obj ([("code", .num code), ("message", .str message)] ++
    (match data with | some d => [("data", d)] | none => []))

/-- `createParseError()` with no data. -/
def createParseError : JValue := createJSONRPCError (-32700) "Parse error" none

/-- `createInternalError(data)`. -/
def createInternalError (data : JValue) : JValue :=
  createJSONRPCError (-32603) "Internal error" (some data)

/-- `createServerError(message)`. -/
def createServerError (message : String) : JValue :=
  createJSONRPCError (-32000) message none

/-- `String(error)` for a thrown `Error` object carrying message `m`. -/
def errorToString (m : String) : String := "Error: " ++ m

/-- A JSON-RPC error-response envelope `{jsonrpc, id, error}`. -/
def errorEnvelope (id : JValue) (err : JValue) : JValue :=
  .obj [("jsonrpc", .str "2.0"), ("id", id), ("error", err)]

/-- The proxy core's transport (`this.transport` of `MCPProxyServer`)
writing one SSE event: bump that instance's `eventCounter` and emit the
event. -/
def proxySendSSEMessage (w : World) (stream : Nat) (msg : JValue) : World :=
  let c := w.proxyCounter + 1
  { w with proxyCounter := c,
           sseWrites := w.sseWrites ++ [⟨stream, .proxy, c, msg⟩] }

/-- The HTTP front-end's transport (`this.transport` of `HTTPServer`, a
separate instance with its own `eventCounter`) writing one SSE event. -/
def httpSendSSEMessage (w : World) (stream : Nat) (msg : JValue) : World :=
  let c := w.httpCounter + 1
  { w with httpCounter := c,
           sseWrites := w.sseWrites ++ [⟨stream, .http, c, msg⟩] }

/-! ### Proxy core (`src/proxy/server.ts`)

The external subprocess is the environment: `Env.spawnOk` decides whether a spawn
survives the 500 ms start window, and `Env.reply` gives the stdout lines
(already decoded from line-delimited JSON) the child emits in reaction to a
message written to its stdin.  The modelled schedule delivers those lines
before the correlation wait polls the queue. -/

/-- The behaviour of the external subprocess binaries. -/
structure Env where
  spawnOk : String → Bool
  reply : String → JValue → List JValue

/-- `MCPProxyServer.routeProcessMessage`: on a valid session, flip the
initialized flag on an initialize response, queue the message, then send it
to every active SSE connection through the proxy core's transport.  The
`TypeError` of `isInitializeResponse` on a `result: null` message propagates
to `handleProcessOutput`'s catch before any state is mutated. -/
def MCPProxyServer.routeProcessMessage (w : World) (sid : String)
    (msg : JValue) : World :=
  if !(SessionManager.hasSession w sid) then w
  else
    match MCPProxyServer.isInitializeResponseCheck msg with
    | none => w
    | some isInitResp =>
      let w := if isInitResp then SessionManager.setSessionInitialized w sid else w
      let w := SessionManager.queueMessage w sid msg
      let conns := SessionManager.getActiveSSEConnections w sid
      conns.foldl (fun w' c => proxySendSSEMessage w' c msg) w

/-- `MCPProxyServer.findSessionByProcessId`: first session whose bound
process has the given id (`getAllSessions` iterates in insertion order). -/
def MCPProxyServer.findSessionByProcessId (w : World) (pid : String) :
    Option SessionData :=
  (w.sessions.find? (fun p => p.2.stdioProcessId == some pid)).map Prod.snd

/-- `MCPProxyServer.handleProcessOutput`: validate the decoded stdout line
against `JSONRPCMessageSchema` (`validateJSONRPC` throws on failure, caught
and logged), locate the owning session, route. -/
def MCPProxyServer.handleProcessOutput (w : World) (pid : String)
    (line : JValue) : World :=
  if JSONRPCMessageSchema line then
    match MCPProxyServer.findSessionByProcessId w pid with
    | some s => MCPProxyServer.routeProcessMessage w s.id line
    | none => w
  else w

/-- `ProcessManager.spawnProcess`: refuse id reuse while active; spawn with
piped stdio and wait out the start window; store the handle only on
success. -/
def ProcessManager.spawnProcess (env : Env) (w : World) (pid : String)
    (cfg : ServerConfig) : Except String Unit × World :=
  if w.activeProcessIds.contains pid then
    (.error ("Process " ++ pid ++ " already exists"), w)
  else if env.spawnOk pid then
    let h : ProcHandle :=
      { status := .running, hasProcess := true, stdinPiped := true,
        stdinWrites := [], restarts := 0, config := cfg }
    (.ok (), { w with procObjects := setKey w.procObjects pid h,
                      activeProcessIds := w.activeProcessIds ++ [pid] })
  else (.error "Process failed to start", w)

/-- `MCPProxyServer.createSessionWithProcess`: create the session, spawn
`session-<id>`, attach; on spawn failure destroy the just-created session and
re-throw. -/
def MCPProxyServer.createSessionWithProcess (env : Env) (w : World)
    (cfg : ServerConfig) : Except String String × World :=
  match SessionManager.createSession w cfg none with
  | (.error e, w) => (.error e, w)
  | (.ok sid, w) =>
    match ProcessManager.spawnProcess env w ("session-" ++ sid) cfg with
    | (.error e, w) => (.error e, SessionManager.destroySession w sid)
    | (.ok _, w) => (.ok sid, SessionManager.attachProcess w sid ("session-" ++ sid))

/-- One poll of `waitForResponse`'s queue scan: messages before the first
match are re-queued, the match resolves the wait, and — as in the source —
messages dequeued after the match are not re-queued. -/
def scanQueue (req : JValue) : List JValue → Option JValue × List JValue
  | [] => (none, [])
  | m :: rest =>
    if MCPProxyServer.isResponseFor m req then (some m, [])
    else
      let (r, keep) := scanQueue req rest
      (r, m :: keep)

/-- `MCPProxyServer.waitForResponse` under the modelled schedule (all stdout
lines already routed, one queue poll): fail if the session is gone; resolve
the first matching queued response; otherwise re-queue and time out. -/
def MCPProxyServer.waitForResponse (w : World) (sid : String) (req : JValue) :
    Except String (Option JValue) × World :=
  if !(SessionManager.hasSession w sid) then
    (.error "Session terminated while waiting for response", w)
  else
    let (msgs, w) := SessionManager.dequeueMessages w sid
    match scanQueue req msgs with
    | (some resp, keep) =>
      let w := keep.foldl (fun w' m => SessionManager.queueMessage w' sid m) w
      (.ok (some resp), w)
    | (none, keep) =>
      let w := keep.foldl (fun w' m => SessionManager.queueMessage w' sid m) w
      (.error ("Response timeout for request"), w)

/-- Forward a message to the session's bound process and complete the call:
serialize, write to stdin, let the subprocess's reaction flow back through
`handleProcessOutput`, then wait for the correlated response when one is
required. -/
def MCPProxyServer.forwardAndWait (env : Env) (w : World) (sid : String)
    (spid? : Option String) (msg : JValue) :
    Except String (Option JValue) × World :=
  match spid? with
  | none => (.error "No process attached to session", w)
  | some pid =>
    match w.procObjects.lookup pid with
    | none => (.error "Process is not running", w)
    | some h =>
      match ManagedProcess.sendToStdin h (JValue.stringify msg) with
      | .error e => (.error e, w)
      | .ok h' =>
        let w := { w with procObjects := setKey w.procObjects pid h' }
        let outs := env.reply pid msg
        let w := outs.foldl (fun w' line => MCPProxyServer.handleProcessOutput w' pid line) w
        if StreamableHTTPTransport.requiresResponse msg then
          MCPProxyServer.waitForResponse w sid msg
        else (.ok none, w)

/-- The body of `MCPProxyServer.handleRequest`'s try block. -/
def MCPProxyServer.handleRequestCore (env : Env) (sid? : Option String)
    (msg : JValue) (ep : String) (w : World) :
    Except String (Option JValue) × World :=
  if StreamableHTTPTransport.isInitializeRequest msg then
    match w.serverConfigs.lookup ep with
    | none => (.error ("Unknown server endpoint: " ++ ep), w)
    | some cfg =>
      match MCPProxyServer.createSessionWithProcess env w cfg with
      | (.error e, w) => (.error e, w)
      | (.ok sid, w) =>
        let spid? := (w.sessions.lookup sid).bind SessionData.stdioProcessId
        MCPProxyServer.forwardAndWait env w sid spid? msg
  else
    match sid? with
    | none => (.error "Session ID required for non-initialize requests", w)
    | some sid =>
      match SessionManager.getSession w sid with
      | (none, w) => (.error ("Session not found: " ++ sid), w)
      | (some s, w) => MCPProxyServer.forwardAndWait env w sid s.stdioProcessId msg

/-- The outcome of `handleRequest`: a returned value, or an exception that
escapes to the caller (only possible for messages without an `id`). -/
inductive HRResult where
  | ok : Option JValue → HRResult
  | thrown : String → HRResult

/-- `MCPProxyServer.handleRequest`: the try body plus its catch, which turns
any error into a JSON-RPC internal-error response when the message has an
`id` and re-throws otherwise. -/
def MCPProxyServer.handleRequest (env : Env) (sid? : Option String)
    (msg : JValue) (ep : String) (w : World) : HRResult × World :=
  match MCPProxyServer.handleRequestCore env sid? msg ep w with
  | (.ok r, w) => (.ok r, w)
  | (.error e, w) =>
    if hasField msg "id" then
      (.ok (some (errorEnvelope ((getField msg "id").getD .null)
        (createInternalError (.str (errorToString e))))), w)
    else (.thrown e, w)

/-- `MCPProxyServer.handleBatch`: process the entries in order with
`handleRequest`, keeping non-null non-array results; a thrown entry error
contributes an internal-error response when the entry has an `id`, and never
stops the loop. -/
def MCPProxyServer.handleBatch (env : Env) (sid? : Option String)
    (msgs : List JValue) (ep : String) (w : World) : List JValue × World :=
  match msgs with
  | [] => ([], w)
  | m :: rest =>
    let (contrib, w') :=
      match MCPProxyServer.handleRequest env sid? m ep w with
      | (.ok (some resp), w') =>
        (if (match resp with | .arr _ => true | _ => false) then none else some resp, w')
      | (.ok none, w') => (none, w')
      | (.thrown e, w') =>
        (if hasField m "id" then
          some (errorEnvelope ((getField m "id").getD .null)
            (createInternalError (.str (errorToString e))))
        else none, w')
    let (tail, w'') := MCPProxyServer.handleBatch env sid? rest ep w'
    ((match contrib with | some r => r :: tail | none => tail), w'')

/-! ### HTTP front-end (`src/server/http.ts`) -/

/-- An HTTP exchange as the front-end sees it (after Express's JSON body
parsing).  `streamId` identifies the response object should the exchange be
upgraded to an SSE stream. -/
structure MCPPostRequest where
  contentType : Option String
  accept : Option String
  sessionHeader : Option String
  body : JValue
  endpoint : String
  streamId : Nat

/-- The HTTP response the front-end produces (headers in set order). -/
structure HTTPResult where
  status : Nat
  headers : List (String × String)
  body : Option JValue
  isSSE : Bool

/-- `acceptsSSE`: `accept?.includes('text/event-stream') || false`. -/
def acceptsSSEHeader : Option String → Bool
  | some a => jsIncludes a "text/event-stream"
  | none => false

/-- `validateContentType` on a POST: require `Content-Type` to include
`application/json`. -/
def contentTypeOk : Option String → Bool
  | some ct => jsIncludes ct "application/json"
  | none => false

/-- `validateAcceptHeader`: require an `Accept` header including one of
`application/json`, `text/event-stream`, `*/*`. -/
def acceptHeaderOk : Option String → Bool
  | some a =>
    jsIncludes a "application/json" || jsIncludes a "text/event-stream" ||
    jsIncludes a "*/*"
  | none => false

/-- `HTTPServer.findSessionFromResponse` — the source is an acknowledged
placeholder: it always returns `null`. -/
def HTTPServer.findSessionFromResponse (_response : JValue) : Option String :=
  none

/-- The SSE response headers written by `initSSE` (plus the session header
when a session id is supplied). -/
def sseHeaders (sid? : Option String) : List (String × String) :=
  [("Content-Type", "text/event-stream"),
   ("Cache-Control", "no-cache, no-transform"),
   ("Connection", "keep-alive"),
   ("X-Accel-Buffering", "no")] ++
  (match sid? with | some s => [("Mcp-Session-Id", s)] | none => [])

/-- `HTTPServer.handleMCPRequest` for a POST on a server endpoint: header
validation, body parse, dispatch to `handleBatch`/`handleRequest`, then the
response-mode decision (202 / SSE-upgrade / JSON, with the initialize
session-header branch going through `findSessionFromResponse`). -/
def HTTPServer.handleMCPRequest (env : Env) (w : World) (req : MCPPostRequest) :
    HTTPResult × World :=
  if !(contentTypeOk req.contentType) then
    (⟨415, [], none, false⟩, w)
  else if !(acceptHeaderOk req.accept) then
    (⟨406, [], none, false⟩, w)
  else
    let sid? := req.sessionHeader
    match StreamableHTTPTransport.parseRequest req.body with
    | none =>
      (⟨400, [("Content-Type", "application/json")],
        some (errorEnvelope .null createParseError), false⟩, w)
    | some parsed =>
      match parsed with
      | .arr ms =>
        -- batch: the result array is never null; the SSE upgrade is skipped
        -- for batches, and the header branch is skipped because the response
        -- is an array
        let (resps, w) := MCPProxyServer.handleBatch env sid? ms req.endpoint w
        (⟨200, [("Content-Type", "application/json")], some (.arr resps), false⟩, w)
      | m =>
        match MCPProxyServer.handleRequest env sid? m req.endpoint w with
        | (.thrown e, w) =>
          (⟨500, [("Content-Type", "application/json")],
            some (errorEnvelope .null (createServerError (errorToString e))), false⟩, w)
        | (.ok none, w) =>
          -- notification or orphaned response: 202 Accepted, echoing the
          -- request's session header when present
          (⟨202, (match sid? with | some s => [("Mcp-Session-Id", s)] | none => []),
            none, false⟩, w)
        | (.ok (some resp), w) =>
          if acceptsSSEHeader req.accept then
            -- initSSE (with the request's session header value) and a single
            -- event through the front-end's transport, then end
            let w := httpSendSSEMessage w req.streamId resp
            (⟨200, sseHeaders sid?, none, true⟩, w)
          else
            let isInit := StreamableHTTPTransport.isInitializeRequest m
            let hdrs :=
              if isInit && !(match resp with | .arr _ => true | _ => false) &&
                  hasField resp "id" then
                match HTTPServer.findSessionFromResponse resp with
                | some s => [("Mcp-Session-Id", s)]
                | none => []
              else []
            (⟨200, hdrs ++ [("Content-Type", "application/json")], some resp, false⟩, w)

/-- `HTTPServer.handleSSERequest` for a GET on a server endpoint: require an
SSE-capable `Accept`, a session id header and a live session; then write the
SSE preamble, register the connection, and drain the queue to the new stream
through the front-end's transport. -/
def HTTPServer.handleSSERequest (w : World) (streamId : Nat)
    (accept? : Option String) (sid? : Option String) : HTTPResult × World :=
  if !(acceptsSSEHeader accept?) then (⟨406, [], none, false⟩, w)
  else
    match sid? with
    | none => (⟨400, [], none, false⟩, w)
    | some sid =>
      match SessionManager.getSession w sid with
      | (none, w) => (⟨404, [], none, false⟩, w)
      | (some _, w) =>
        let w := SessionManager.addSSEConnection w sid streamId
        let (queued, w) := SessionManager.dequeueMessages w sid
        let w := queued.foldl (fun w' msg => httpSendSSEMessage w' streamId msg) w
        (⟨200, sseHeaders (some sid), none, true⟩, w)

/-- `HTTPServer.handleDeleteSession`: 400 without a session id, otherwise
destroy and reply 204. -/
def HTTPServer.handleDeleteSession (w : World) (sid? : Option String) :
    HTTPResult × World :=
  match sid? with
  | none => (⟨400, [], none, false⟩, w)
  | some sid =>
    let w := SessionManager.destroySession w sid
    (⟨204, [], none, false⟩, w)

/-! ### Traces of the SSE-relevant surface

`runOps` drives the embedded handlers with the externally-visible events that
can write SSE frames to session streams: a subprocess stdout line, an SSE
attach, and a session delete. -/

/-- External events on the SSE-relevant surface. -/
inductive Op where
  | subprocessLine : String → JValue → Op
  | sseAttach : Nat → Option String → Op
  | deleteSession : Option String → Op

/-- Dispatch one event to the corresponding embedded handler (the SSE attach
arrives with `Accept: text/event-stream`). -/
def stepOp (w : World) : Op → World
  | .subprocessLine pid line => MCPProxyServer.handleProcessOutput w pid line
  | .sseAttach streamId sid? =>
    (HTTPServer.handleSSERequest w streamId (some "text/event-stream") sid?).2
  | .deleteSession sid? => (HTTPServer.handleDeleteSession w sid?).2

/-- Run a list of events. -/
def runOps (ops : List Op) (w : World) : World :=
  ops.foldl stepOp w

/-! ### Concrete fixtures -/

/-- A configured server (the test-harness echo server shape). -/
def echoConfig : ServerConfig :=
  { name := "echo", command := "node", args := ["echo.js"] }

/-- A fresh proxy state: one configured endpoint, no sessions, timeout
disabled, default `maxSessions`. -/
def baseWorld : World :=
  { sessions := [], activeProcessIds := [], procObjects := [],
    restartAttempts := [], serverConfigs := [("/echo", echoConfig)],
    proxyCounter := 0, httpCounter := 0, sseWrites := [], closedStreams := [],
    killedProcesses := [], freshCounter := 0, now := 1000,
    sessionTimeout := 0, maxSessions := 100 }

/-- A running supervised child. -/
def runningHandle : ProcHandle :=
  { status := .running, hasProcess := true, stdinPiped := true,
    stdinWrites := [], restarts := 0, config := echoConfig }

/-- A live session bound to `session-s1` with one attached SSE stream
(number 7). -/
def sess1 : SessionData :=
  { id := "s1", createdAt := 0, lastActivityAt := 1000,
    serverConfig := echoConfig, stdioProcessId := some "session-s1",
    messageQueue := [], isInitialized := true, sseConnections := [7] }

/-- `w1`: the world holding `sess1` and its running subprocess. -/
def w1 : World :=
  { baseWorld with sessions := [("s1", sess1)],
                   activeProcessIds := ["session-s1"],
                   procObjects := [("session-s1", runningHandle)] }

/-- Like `sess1` but with no SSE stream attached yet. -/
def sess2 : SessionData := { sess1 with sseConnections := [] }

/-- `w2`: the world holding `sess2` and its running subprocess. -/
def w2 : World := { w1 with sessions := [("s1", sess2)] }

/-- A server-initiated notification carrying the given method name. -/
def noteMsg (k : String) : JValue :=
  .obj [("jsonrpc", .str "2.0"), ("method", .str k)]

/-- An initialize request with id `"i1"`. -/
def initMsg : JValue :=
  .obj [("jsonrpc", .str "2.0"), ("id", .str "i1"), ("method", .str "initialize")]

/-- The echo subprocess's initialize response, id `"i1"`. -/
def initResponse : JValue :=
  .obj [("jsonrpc", .str "2.0"), ("id", .str "i1"),
        ("result", .obj [("serverInfo", .obj [("name", .str "echo")])])]

/-- A subprocess environment where spawns succeed and every written message
is answered with `initResponse`. -/
def envEcho : Env :=
  { spawnOk := fun _ => true, reply := fun _ _ => [initResponse] }

/-- The initialize POST with JSON-only `Accept` and no session header. -/
def postInit : MCPPostRequest :=
  { contentType := some "application/json", accept := some "application/json",
    sessionHeader := none, body := initMsg, endpoint := "/echo", streamId := 99 }

/-! ### C1 -/

/-- C1: destroying a session does **not** kill the subprocess bound to it.
Destroying `s1` (the explicit-DELETE path calls exactly
`SessionManager.destroySession`) removes the session and ends its attached
SSE stream, but the `session:destroyed` handler looks the session up *after*
the registry entry was deleted, so `killProcess` is unreachable: the handle
stays in the supervisor's active set and no SIGTERM is sent — contradicting
the claim that session destruction kills the subprocess and leaves no handle
in the active set. -/
theorem destroySession_leaves_subprocess_active :
    (SessionManager.destroySession w1 "s1").sessions = [] ∧
    (SessionManager.destroySession w1 "s1").closedStreams = [7] ∧
    (SessionManager.destroySession w1 "s1").activeProcessIds = ["session-s1"] ∧
    (SessionManager.destroySession w1 "s1").killedProcesses = [] := by
  refine ⟨rfl, rfl, rfl, rfl⟩

/-! ### C2 -/

/-- C2 counterexample: a server-initiated notification that arrives while
stream 3 is attached is delivered to stream 3 **and** left in the session's
queue, and a subsequently attaching stream 4 receives the same message again
from the drain — two deliveries of one enqueued message, refuting the
exactly-once claim. -/
theorem attached_message_queued_and_redelivered :
    ((runOps [.sseAttach 3 (some "s1"),
      .subprocessLine "session-s1" (noteMsg "notifications/a")] w2).sessions.lookup
        "s1").map SessionData.messageQueue = some [noteMsg "notifications/a"] ∧
    (runOps [.sseAttach 3 (some "s1"),
      .subprocessLine "session-s1" (noteMsg "notifications/a"),
      .sseAttach 4 (some "s1")] w2).sseWrites.map
        (fun e => (e.stream, e.data)) =
      [(3, noteMsg "notifications/a"), (4, noteMsg "notifications/a")] := by
  refine ⟨rfl, rfl⟩

/-! ### C3 -/

/-- C3: a successful non-batch initialize POST answered with a 200 JSON body
does **not** carry the `Mcp-Session-Id` header: the front-end's
`findSessionFromResponse` is a stub returning `null`, so the header branch
never fires (the repository's own integration test expects this header to be
set). -/
theorem initialize_response_lacks_session_header :
    (HTTPServer.handleMCPRequest envEcho baseWorld postInit).1.status = 200 ∧
    (HTTPServer.handleMCPRequest envEcho baseWorld postInit).1.body =
      some initResponse ∧
    (HTTPServer.handleMCPRequest envEcho baseWorld postInit).1.headers.lookup
      "Mcp-Session-Id" = none := by
  refine ⟨rfl, rfl, rfl⟩

/-! ### C4 -/

/-- A response object with `jsonrpc: "2.0"`, an id, no `method`, and exactly
one of `result`/`error` present — but with the falsy `result` value
`false`. -/
def respFalsy : JValue :=
  .obj [("jsonrpc", .str "2.0"), ("id", .num 1), ("result", .bool false)]

/-- A response object with **both** `result` (null) and `error` present. -/
def respBoth : JValue :=
  .obj [("jsonrpc", .str "2.0"), ("id", .num 1), ("result", .null),
        ("error", .obj [("code", .num (-32000)), ("message", .str "boom")])]

/-- C4: the codec does not accept responses by presence of exactly one of
`result`/`error`: the schema's refine compares JavaScript truthiness, so
`respFalsy` (exactly one present, falsy value) is rejected while `respBoth`
(both present) is accepted — refuting the claim in both directions. -/
theorem response_schema_uses_truthiness :
    JSONRPCMessageSchema respFalsy = false ∧
    hasField respFalsy "result" = true ∧ hasField respFalsy "error" = false ∧
    JSONRPCMessageSchema respBoth = true ∧
    hasField respBoth "result" = true ∧ hasField respBoth "error" = true := by
  refine ⟨rfl, rfl, rfl, rfl, rfl, rfl⟩

/-! ### C5 -/

/-- C5 counterexample: stream 3 receives drained messages through the HTTP
front-end's transport (ids 1, 2) and a live push through the proxy core's
separate transport (id 1 again): the id sequence observed by one stream is
`[1, 2, 1]`, not strictly monotone. -/
theorem stream_event_ids_not_monotone :
    ((runOps [.subprocessLine "session-s1" (noteMsg "n1"),
      .subprocessLine "session-s1" (noteMsg "n2"),
      .sseAttach 3 (some "s1"),
      .subprocessLine "session-s1" (noteMsg "n3")] w2).sseWrites.filter
        (fun e => e.stream == 3)).map SSEWrite.eid = [1, 2, 1] ∧
    ¬ List.Pairwise (· < ·)
      (((runOps [.subprocessLine "session-s1" (noteMsg "n1"),
        .subprocessLine "session-s1" (noteMsg "n2"),
        .sseAttach 3 (some "s1"),
        .subprocessLine "session-s1" (noteMsg "n3")] w2).sseWrites.filter
          (fun e => e.stream == 3)).map SSEWrite.eid) := by
  constructor
  · rfl
  · intro h
    rw [show (((runOps [.subprocessLine "session-s1" (noteMsg "n1"),
        .subprocessLine "session-s1" (noteMsg "n2"),
        .sseAttach 3 (some "s1"),
        .subprocessLine "session-s1" (noteMsg "n3")] w2).sseWrites.filter
          (fun e => e.stream == 3)).map SSEWrite.eid) = [1, 2, 1] from rfl] at h
    simp [List.pairwise_cons] at h

/-! ### C6 -/

/-- The empty-batch POST (valid headers, body `[]`). -/
def postEmptyBatch : MCPPostRequest := { postInit with body := .arr [] }

/-- C6 counterexample: the POST whose body is the empty JSON array is
rejected with the parse-error kind `-32700`, not the invalid-request kind
`-32600` claimed: `parseRequest` collapses every schema failure (including
`z.array(...).min(1)` on `[]`) to `null`, which `handleMCPRequest` maps to
`createParseError()`. -/
theorem empty_batch_rejected_with_parse_error :
    (HTTPServer.handleMCPRequest envEcho baseWorld postEmptyBatch).1.status = 400 ∧
    ((HTTPServer.handleMCPRequest envEcho baseWorld postEmptyBatch).1.body.bind
      (fun b => getField b "error")).bind (fun e => getField e "code") =
      some (.num (-32700)) ∧ (-32700 : Int) ≠ -32600 := by
  refine ⟨rfl, rfl, by decide⟩

/-- C6 amended: every POST carrying the empty JSON array as its body (with
valid `Content-Type` and `Accept` headers) is rejected with the parse-error
kind `-32700` and HTTP 400, because `parseRequest` collapses the schema
failure of `z.array(...).min(1)` on `[]` to `null` and the front-end maps a
`null` parse to `createParseError()`. -/
theorem empty_batch_yields_parse_error_kind (env : Env) (w : World)
    (sid? : Option String) (ep : String) (streamId : Nat) :
    HTTPServer.handleMCPRequest env w
      { contentType := some "application/json",
        accept := some "application/json", sessionHeader := sid?,
        body := .arr [], endpoint := ep, streamId := streamId } =
      (⟨400, [("Content-Type", "application/json")],
        some (errorEnvelope .null createParseError), false⟩, w) := rfl

/-! ### C7 -/

/-- State-threading map: the list of per-entry outputs of `f` in input
order. -/
def mapWithState {α β : Type} (f : α → World → β × World) :
    List α → World → List β × World
  | [], w => ([], w)
  | x :: xs, w =>
    let (y, w') := f x w
    let (ys, w'') := mapWithState f xs w'
    (y :: ys, w'')

/-- What one batch entry contributes: the `handleRequest` result when it is a
non-null, non-array response; an internal-error envelope when the entry threw
and has an `id`; nothing otherwise. -/
def batchEntryResult (env : Env) (sid? : Option String) (ep : String)
    (m : JValue) (w : World) : Option JValue × World :=
  match MCPProxyServer.handleRequest env sid? m ep w with
  | (.ok (some resp), w') =>
    (if (match resp with | .arr _ => true | _ => false) then none else some resp, w')
  | (.ok none, w') => (none, w')
  | (.thrown e, w') =>
    (if hasField m "id" then
      some (errorEnvelope ((getField m "id").getD .null)
        (createInternalError (.str (errorToString e))))
    else none, w')

/-- `handleBatch` equals the state-threading map of per-entry results with
the `none`s dropped — for every list of messages. -/
theorem handleBatch_eq_mapWithState (env : Env) (sid? : Option String)
    (ep : String) : ∀ (msgs : List JValue) (w : World),
    MCPProxyServer.handleBatch env sid? msgs ep w =
      ((mapWithState (batchEntryResult env sid? ep) msgs w).1.reduceOption,
       (mapWithState (batchEntryResult env sid? ep) msgs w).2)
  | [], w => by simp [MCPProxyServer.handleBatch, mapWithState, List.reduceOption]
  | m :: rest, w => by
    have ih := handleBatch_eq_mapWithState env sid? ep rest
    simp only [MCPProxyServer.handleBatch, mapWithState, batchEntryResult]
    rcases hr : MCPProxyServer.handleRequest env sid? m ep w with ⟨r, w'⟩
    match r with
    | .ok none => simp [ih w', List.reduceOption]
    | .ok (some resp) =>
      match resp with
      | .arr xs => simp [ih w', List.reduceOption]
      | .null | .bool _ | .num _ | .str _ | .obj _ =>
        simp [ih w', List.reduceOption]
    | .thrown e =>
      by_cases hid : hasField m "id" = true
      · simp [hid, ih w', List.reduceOption]
      · simp [Bool.not_eq_true] at hid
        simp [hid, ih w', List.reduceOption]

/-- C7: for every non-empty list of messages, `handleBatch` processes the
entries in input order and returns exactly the non-null per-entry results in
that order; a thrown entry error becomes a JSON-RPC error envelope for that
entry when it has an `id` (see `batchEntryResult`) and never aborts the
remaining entries. -/
theorem handleBatch_in_order_nonnull (env : Env) (sid? : Option String)
    (msgs : List JValue) (ep : String) (w : World) (_hne : msgs ≠ []) :
    MCPProxyServer.handleBatch env sid? msgs ep w =
      ((mapWithState (batchEntryResult env sid? ep) msgs w).1.reduceOption,
       (mapWithState (batchEntryResult env sid? ep) msgs w).2) :=
  handleBatch_eq_mapWithState env sid? ep msgs w

/-- C7 witness: the two-element batch `[initialize, initialized]` on a fresh
world (non-empty, discharging the hypothesis) satisfies the `handleBatch`
characterisation. -/
theorem handleBatch_in_order_nonnull_witness :
    MCPProxyServer.handleBatch envEcho none
        [initMsg, noteMsg "notifications/initialized"] "/echo" baseWorld =
      ((mapWithState (batchEntryResult envEcho none "/echo")
          [initMsg, noteMsg "notifications/initialized"] baseWorld).1.reduceOption,
       (mapWithState (batchEntryResult envEcho none "/echo")
          [initMsg, noteMsg "notifications/initialized"] baseWorld).2) :=
  handleBatch_in_order_nonnull envEcho none
    [initMsg, noteMsg "notifications/initialized"] "/echo" baseWorld (by simp)

/-! ### C9 -/

/-- C9: a stdin write on a handle that is not running (or has no underlying
child) fails immediately with an error — no chunk is written — and a write on
a running handle (whose stdio is piped, as `start` always arranges) writes
the string followed by a `"\n"` chunk exactly when the string does not
already end with a newline. -/
theorem sendToStdin_spec (h : ProcHandle) (d : String) :
    (h.hasProcess = false ∨ h.status ≠ ProcStatus.running →
      ManagedProcess.sendToStdin h d = .error "Process is not running") ∧
    (h.hasProcess = true → h.status = ProcStatus.running → h.stdinPiped = true →
      ManagedProcess.sendToStdin h d = .ok { h with stdinWrites :=
        h.stdinWrites ++ [d] ++ (if d.endsWith "\n" then [] else ["\n"]) }) := by
  constructor
  · intro hcase
    cases hp : h.hasProcess <;> cases hs : h.status <;>
      simp [ManagedProcess.sendToStdin] <;>
      rcases hcase with hc | hc <;> simp_all
  · intro hp hs hq
    simp [ManagedProcess.sendToStdin, hp, hs, hq]

/-- C9 witness: writing `"ping"` (no trailing newline) to the running handle
appends the chunk and a newline chunk. -/
theorem sendToStdin_spec_witness :
    ManagedProcess.sendToStdin runningHandle "ping" =
      .ok { runningHandle with stdinWrites := runningHandle.stdinWrites ++
        ["ping"] ++ (if "ping".endsWith "\n" then [] else ["\n"]) } :=
  (sendToStdin_spec runningHandle "ping").2 rfl rfl rfl

/-! ### C10 -/

/-- C10: on an initialize request, a supplied `Mcp-Session-Id` is silently
ignored — `handleRequest` behaves exactly as if no session id had been
supplied (the initialize branch overwrites the parameter before any use), so
a fresh session and subprocess are created either way. -/
theorem handleRequest_ignores_session_id_on_initialize (env : Env)
    (sid : String) (msg : JValue) (ep : String) (w : World)
    (hinit : StreamableHTTPTransport.isInitializeRequest msg = true) :
    MCPProxyServer.handleRequest env (some sid) msg ep w =
      MCPProxyServer.handleRequest env none msg ep w := by
  simp [MCPProxyServer.handleRequest, MCPProxyServer.handleRequestCore, hinit]

/-- C10 witness: the concrete initialize POST gives identical outcomes with
and without a stale session id supplied. -/
theorem handleRequest_ignores_session_id_witness :
    StreamableHTTPTransport.isInitializeRequest initMsg = true ∧
    MCPProxyServer.handleRequest envEcho (some "stale-id") initMsg "/echo" baseWorld =
      MCPProxyServer.handleRequest envEcho none initMsg "/echo" baseWorld :=
  ⟨rfl, handleRequest_ignores_session_id_on_initialize envEcho "stale-id"
    initMsg "/echo" baseWorld rfl⟩

/-! ### Association-list lemmas -/

theorem lookup_eraseKey_self {α : Type} (l : List (String × α)) (k : String) :
    (eraseKey l k).lookup k = none := by
  induction l with
  | nil => rfl
  | cons p l ih =>
    obtain ⟨a, b⟩ := p
    simp only [eraseKey, List.filter_cons] at *
    by_cases hp : a = k
    · rw [if_neg (by simp [hp])]
      exact ih
    · rw [if_pos (by simp [hp]), List.lookup_cons]
      have : (k == a) = false := by
        simp only [beq_eq_false_iff_ne]
        exact fun h => hp h.symm
      rw [this]
      exact ih

theorem lookup_eraseKey_ne {α : Type} (l : List (String × α)) (k k' : String)
    (hne : k' ≠ k) : (eraseKey l k).lookup k' = l.lookup k' := by
  induction l with
  | nil => rfl
  | cons p l ih =>
    obtain ⟨a, b⟩ := p
    simp only [eraseKey, List.filter_cons] at *
    by_cases hp : a = k
    · rw [if_neg (by simp [hp]), List.lookup_cons]
      have : (k' == a) = false := by simp [hp, hne]
      rw [this]
      exact ih
    · rw [if_pos (by simp [hp]), List.lookup_cons, List.lookup_cons]
      by_cases hq : k' = a
      · rw [show (k' == a) = true by simp [hq]]
      · rw [show (k' == a) = false by simp [hq]]
        exact ih

theorem filter_mapSet {α : Type} (l : List (String × α)) (k : String) (v : α) :
    ((l.map (fun p => if p.1 == k then (k, v) else p)).filter
      (fun p => p.1 != k)) = l.filter (fun p => p.1 != k) := by
  induction l with
  | nil => rfl
  | cons p l ih =>
    obtain ⟨a, b⟩ := p
    by_cases hp : a = k
    · simpa [hp] using ih
    · simpa [hp] using ih

theorem eraseKey_setKey {α : Type} (l : List (String × α)) (k : String) (v : α) :
    eraseKey (setKey l k v) k = eraseKey l k := by
  unfold setKey eraseKey
  by_cases ha : l.any (fun p => p.1 == k)
  · simp only [ha, if_true]
    exact filter_mapSet l k v
  · simp [ha, List.filter_append]

theorem setKey_length_le {α : Type} (l : List (String × α)) (k : String) (v : α) :
    (setKey l k v).length ≤ l.length + 1 := by
  unfold setKey
  by_cases ha : l.any (fun p => p.1 == k)
  · simp [ha]
  · simp [ha]

theorem lookup_of_mem_nodupKeys {α : Type} (l : List (String × α))
    (p : String × α) (hp : p ∈ l) (hnd : (l.map Prod.fst).Nodup) :
    l.lookup p.1 = some p.2 := by
  induction l with
  | nil => cases hp
  | cons q l ih =>
    obtain ⟨a, b⟩ := q
    simp only [List.map_cons, List.nodup_cons] at hnd
    rw [List.lookup_cons]
    rcases List.mem_cons.mp hp with hph | hph
    · subst hph
      simp
    · have hne : (p.1 == a) = false := by
        simp only [beq_eq_false_iff_ne]
        intro he
        exact hnd.1 (he ▸ List.mem_map_of_mem Prod.fst hph)
      rw [hne]
      exact ih hph hnd.2

theorem eq_of_mem_nodupKeys {α : Type} (l : List (String × α))
    (p q : String × α) (hp : p ∈ l) (hq : q ∈ l)
    (hnd : (l.map Prod.fst).Nodup) (hk : p.1 = q.1) : p = q := by
  have h1 := lookup_of_mem_nodupKeys l p hp hnd
  have h2 := lookup_of_mem_nodupKeys l q hq hnd
  rw [hk] at h1
  rw [h1] at h2
  have h3 : p.2 = q.2 := Option.some.inj h2
  obtain ⟨a, b⟩ := p
  obtain ⟨c, d⟩ := q
  simp only at hk h3
  rw [hk, h3]

/-! ### Characterisations of the session-destruction chain -/

theorem getAux_absent (handler : World → String → World) (w : World)
    (sid : String) (h : w.sessions.lookup sid = none) :
    getAux handler w sid = (none, w) := by
  simp only [getAux, h]

theorem onDestroyedAux_absent (handler : World → String → World) (w : World)
    (sid : String) (h : w.sessions.lookup sid = none) :
    onDestroyedAux handler w sid = w := by
  simp only [onDestroyedAux, getAux_absent handler w sid h]

theorem smOps_onSessionDestroyed_absent (n : Nat) (w : World) (sid : String)
    (h : w.sessions.lookup sid = none) :
    (smOps n).onSessionDestroyed w sid = w := by
  cases n with
  | zero => rfl
  | succ m => exact onDestroyedAux_absent _ w sid h

theorem destroyAux_absent (handler : World → String → World) (w : World)
    (sid : String) (h : w.sessions.lookup sid = none) :
    destroyAux handler w sid = w := by
  simp only [destroyAux, h]

theorem destroySession_absent (w : World) (sid : String)
    (h : w.sessions.lookup sid = none) :
    SessionManager.destroySession w sid = w :=
  destroyAux_absent _ w sid h

/-- Destroying a bound session through `destroyAux` with an absent-clean
handler ends its SSE streams and removes the map entry. -/
theorem destroyAux_found (handler : World → String → World) (w : World)
    (sid : String) (s : SessionData)
    (h : w.sessions.lookup sid = some s)
    (hhandler : ∀ w', w'.sessions.lookup sid = none → handler w' sid = w') :
    destroyAux handler w sid =
      { w with closedStreams := w.closedStreams ++ s.sseConnections,
               sessions := eraseKey w.sessions sid } := by
  simp only [destroyAux, h]
  rw [eraseKey_setKey]
  exact hhandler _ (lookup_eraseKey_self _ _)

/-- Destroying a bound session ends its SSE streams and removes the map
entry; the `session:destroyed` handler then finds nothing (the entry is
already gone) and changes nothing. -/
theorem destroySession_found (w : World) (sid : String) (s : SessionData)
    (h : w.sessions.lookup sid = some s) :
    SessionManager.destroySession w sid =
      { w with closedStreams := w.closedStreams ++ s.sseConnections,
               sessions := eraseKey w.sessions sid } :=
  destroyAux_found _ w sid s h
    (fun w' h' => smOps_onSessionDestroyed_absent 1 w' sid h')

theorem getSession_expired (w : World) (sid : String) (s : SessionData)
    (h : w.sessions.lookup sid = some s) (he : isSessionExpired w s = true) :
    SessionManager.getSession w sid = (none, SessionManager.destroySession w sid) := by
  show getAux _ w sid = _
  simp only [getAux, h, he, if_true]
  rfl

theorem getSession_live (w : World) (sid : String) (s : SessionData)
    (h : w.sessions.lookup sid = some s) (he : isSessionExpired w s = false) :
    SessionManager.getSession w sid =
      (some { s with lastActivityAt := w.now },
       { w with sessions := setKey w.sessions sid { s with lastActivityAt := w.now } }) := by
  show getAux _ w sid = _
  simp only [getAux, h, he]
  rfl

/-- One sweep step on an expired, bound session is exactly `destroySession`:
the `session:expired` handler's lookup evicts the session (returning
`undefined`, so no process kill), and the sweeper's own `destroySession` then
finds nothing. -/
theorem cleanupStep_expired (w : World) (sid : String) (s : SessionData)
    (h : w.sessions.lookup sid = some s) (he : isSessionExpired w s = true) :
    SessionManager.destroySession (MCPProxyServer.handleSessionExpired w sid) sid =
      { w with closedStreams := w.closedStreams ++ s.sseConnections,
               sessions := eraseKey w.sessions sid } := by
  have hg := getSession_expired w sid s h he
  have hd := destroySession_found w sid s h
  unfold MCPProxyServer.handleSessionExpired
  rw [hg]
  rw [hd]
  exact destroySession_absent _ sid (lookup_eraseKey_self _ _)

/-- The expiry sweep's fold over a duplicate-free list of expired, bound
session ids removes exactly the entries with those keys and preserves the
clock, the timeout and the session cap. -/
theorem foldCleanup (ids : List String) : ∀ (w : World), ids.Nodup →
    (∀ sid ∈ ids, ∃ s, w.sessions.lookup sid = some s ∧
      isSessionExpired w s = true) →
    (ids.foldl (fun w' sid => SessionManager.destroySession
        (MCPProxyServer.handleSessionExpired w' sid) sid) w).sessions =
      w.sessions.filter (fun p => !(ids.contains p.1)) ∧
    (ids.foldl (fun w' sid => SessionManager.destroySession
        (MCPProxyServer.handleSessionExpired w' sid) sid) w).now = w.now ∧
    (ids.foldl (fun w' sid => SessionManager.destroySession
        (MCPProxyServer.handleSessionExpired w' sid) sid) w).sessionTimeout =
      w.sessionTimeout ∧
    (ids.foldl (fun w' sid => SessionManager.destroySession
        (MCPProxyServer.handleSessionExpired w' sid) sid) w).maxSessions =
      w.maxSessions := by
  induction ids with
  | nil =>
    intro w _ _
    refine ⟨?_, rfl, rfl, rfl⟩
    simp
  | cons sid ids ih =>
    intro w hnd hall
    obtain ⟨s, hs, he⟩ := hall sid (List.mem_cons_self _ _)
    have hstep := cleanupStep_expired w sid s hs he
    simp only [List.foldl_cons, hstep]
    have hnd' : ids.Nodup := (List.nodup_cons.mp hnd).2
    have hmem : sid ∉ ids := (List.nodup_cons.mp hnd).1
    have ihx := ih
      { w with closedStreams := w.closedStreams ++ s.sseConnections,
               sessions := eraseKey w.sessions sid } hnd'
      (by
        intro sid' hsid'
        obtain ⟨s', hs', he'⟩ := hall sid' (List.mem_cons_of_mem _ hsid')
        refine ⟨s', ?_, he'⟩
        show (eraseKey w.sessions sid).lookup sid' = some s'
        rw [lookup_eraseKey_ne _ _ _
          (fun hEq => hmem (by rw [← hEq]; exact hsid'))]
        exact hs')
    obtain ⟨h1, h2, h3, h4⟩ := ihx
    refine ⟨?_, h2, h3, h4⟩
    rw [h1]
    show (List.filter _ (List.filter _ w.sessions)) = _
    rw [List.filter_filter]
    apply List.filter_congr
    intro p _
    simp only [List.contains_cons, Bool.not_or, bne]
    rw [Bool.and_comm]

/-- `cleanupExpiredSessions` removes exactly the expired sessions (given the
registry's duplicate-free keys) and preserves clock, timeout and cap. -/
theorem cleanup_sessions (w : World)
    (hnd : (w.sessions.map Prod.fst).Nodup) :
    (SessionManager.cleanupExpiredSessions w).sessions =
      w.sessions.filter (fun p => !(isSessionExpired w p.2)) ∧
    (SessionManager.cleanupExpiredSessions w).now = w.now ∧
    (SessionManager.cleanupExpiredSessions w).sessionTimeout = w.sessionTimeout ∧
    (SessionManager.cleanupExpiredSessions w).maxSessions = w.maxSessions := by
  have hnd_ids : ((w.sessions.filter (fun p => isSessionExpired w p.2)).map
      Prod.fst).Nodup :=
    List.Nodup.sublist ((List.filter_sublist _).map Prod.fst) hnd
  have hall : ∀ sid ∈ (w.sessions.filter (fun p => isSessionExpired w p.2)).map
      Prod.fst, ∃ s, w.sessions.lookup sid = some s ∧
      isSessionExpired w s = true := by
    intro sid hsid
    obtain ⟨p, hpmem, hpeq⟩ := List.mem_map.mp hsid
    have hpl := List.mem_filter.mp hpmem
    refine ⟨p.2, ?_, hpl.2⟩
    rw [← hpeq]
    exact lookup_of_mem_nodupKeys _ p hpl.1 hnd
  obtain ⟨h1, h2, h3, h4⟩ := foldCleanup _ w hnd_ids hall
  refine ⟨?_, h2, h3, h4⟩
  rw [show SessionManager.cleanupExpiredSessions w =
    ((w.sessions.filter (fun p => isSessionExpired w p.2)).map Prod.fst).foldl
      (fun w' sid => SessionManager.destroySession
        (MCPProxyServer.handleSessionExpired w' sid) sid) w from rfl]
  rw [h1]
  apply List.filter_congr
  intro p hp
  congr 1
  by_cases hexp : isSessionExpired w p.2 = true
  · rw [hexp]
    have hmemf : p ∈ w.sessions.filter (fun q => isSessionExpired w q.2) :=
      List.mem_filter.mpr ⟨hp, hexp⟩
    exact List.elem_eq_true_of_mem (List.mem_map_of_mem Prod.fst hmemf)
  · rw [Bool.not_eq_true] at hexp
    rw [hexp]
    have hnotmem : p.1 ∉ (w.sessions.filter
        (fun q => isSessionExpired w q.2)).map Prod.fst := by
      intro hmem
      obtain ⟨q, hqmem, hqeq⟩ := List.mem_map.mp hmem
      have hql := List.mem_filter.mp hqmem
      have hpq : p = q := eq_of_mem_nodupKeys _ p q hp hql.1 hnd hqeq.symm
      rw [hpq, hql.2] at hexp
      cases hexp
    exact Bool.eq_false_iff.mpr
      (fun hc => hnotmem (List.mem_of_elem_eq_true hc))

/-! ### C8 -/

/-- C8: `createSession` fails with the resource-exhausted error exactly when
the number of live (non-expired) sessions — what remains after the expiry
sweep the limit path runs first — is still at least `maxSessions`; and on
success the session count never exceeds `maxSessions`.  The hypothesis is the
registry invariant that `Map` keys are unique. -/
theorem createSession_limit_spec (w : World) (cfg : ServerConfig)
    (hnd : (w.sessions.map Prod.fst).Nodup) :
    ((∃ e, (SessionManager.createSession w cfg none).1 = Except.error e) ↔
      w.maxSessions ≤
        (w.sessions.filter (fun p => !(isSessionExpired w p.2))).length) ∧
    (∀ sid w', SessionManager.createSession w cfg none = (Except.ok sid, w') →
      w'.sessions.length ≤ w.maxSessions) := by
  obtain ⟨hs, _, _, hmax⟩ := cleanup_sessions w hnd
  unfold SessionManager.createSession
  by_cases hc : w.maxSessions ≤ w.sessions.length
  · rw [if_pos hc]
    by_cases hc2 : w.maxSessions ≤
        (w.sessions.filter (fun p => !(isSessionExpired w p.2))).length
    · rw [if_pos (by rw [hs, hmax]; exact hc2)]
      constructor
      · exact ⟨fun _ => hc2, fun _ => ⟨_, rfl⟩⟩
      · intro sid w' hE
        cases hE
    · rw [if_neg (by rw [hs, hmax]; exact hc2)]
      constructor
      · constructor
        · intro ⟨e, hE⟩
          simp [SessionManager.mkSession] at hE
        · intro hle
          exact absurd hle hc2
      · intro sid w' hE
        have hw' : w' = { SessionManager.cleanupExpiredSessions w with
            sessions := setKey (SessionManager.cleanupExpiredSessions w).sessions
              ("uuid-" ++ toString (SessionManager.cleanupExpiredSessions w).freshCounter)
              { id := "uuid-" ++ toString (SessionManager.cleanupExpiredSessions w).freshCounter,
                createdAt := (SessionManager.cleanupExpiredSessions w).now,
                lastActivityAt := (SessionManager.cleanupExpiredSessions w).now,
                serverConfig := cfg, stdioProcessId := none, messageQueue := [],
                isInitialized := false, sseConnections := [] },
            freshCounter := (SessionManager.cleanupExpiredSessions w).freshCounter + 1 } := by
          have := congrArg Prod.snd hE
          simpa [SessionManager.mkSession] using this.symm
        rw [hw']
        have hlen : (setKey (SessionManager.cleanupExpiredSessions w).sessions
            ("uuid-" ++ toString (SessionManager.cleanupExpiredSessions w).freshCounter)
            { id := "uuid-" ++ toString (SessionManager.cleanupExpiredSessions w).freshCounter,
              createdAt := (SessionManager.cleanupExpiredSessions w).now,
              lastActivityAt := (SessionManager.cleanupExpiredSessions w).now,
              serverConfig := cfg, stdioProcessId := none, messageQueue := [],
              isInitialized := false, sseConnections := [] }).length ≤
            (SessionManager.cleanupExpiredSessions w).sessions.length + 1 :=
          setKey_length_le _ _ _
        have hlive : (SessionManager.cleanupExpiredSessions w).sessions.length + 1 ≤
            w.maxSessions := by
          rw [hs]
          omega
        exact le_trans hlen hlive
  · rw [if_neg hc]
    constructor
    · constructor
      · intro ⟨e, hE⟩
        simp [SessionManager.mkSession] at hE
      · intro hle
        have : (w.sessions.filter (fun p => !(isSessionExpired w p.2))).length ≤
            w.sessions.length := List.length_filter_le _ _
        omega
    · intro sid w' hE
      have hw' : w' = { w with
          sessions := setKey w.sessions ("uuid-" ++ toString w.freshCounter)
            { id := "uuid-" ++ toString w.freshCounter, createdAt := w.now,
              lastActivityAt := w.now, serverConfig := cfg,
              stdioProcessId := none, messageQueue := [],
              isInitialized := false, sseConnections := [] },
          freshCounter := w.freshCounter + 1 } := by
        have := congrArg Prod.snd hE
        simpa [SessionManager.mkSession] using this.symm
      rw [hw']
      have hlen := setKey_length_le w.sessions ("uuid-" ++ toString w.freshCounter)
        { id := "uuid-" ++ toString w.freshCounter, createdAt := w.now,
          lastActivityAt := w.now, serverConfig := cfg,
          stdioProcessId := none, messageQueue := [],
          isInitialized := false, sseConnections := [] }
      simp only
      omega

/-- C8 witness: in `w1` (one live session, cap 100, duplicate-free keys —
discharging the hypothesis) the session created concretely keeps the count
within the cap. -/
theorem createSession_limit_spec_witness :
    (w1.sessions.map Prod.fst).Nodup ∧
    (SessionManager.createSession w1 echoConfig none).2.sessions.length ≤
      w1.maxSessions :=
  ⟨by decide,
   (createSession_limit_spec w1 echoConfig (by decide)).2 "uuid-0" _ rfl⟩

/-! ### C2 (amended): what `routeProcessMessage` actually does -/

theorem lookup_setKey_self_of_any {α : Type} (l : List (String × α))
    (k : String) (v : α) (ha : l.any (fun p => p.1 == k) = true) :
    (l.map (fun p => if p.1 == k then (k, v) else p)).lookup k = some v := by
  induction l with
  | nil => cases ha
  | cons p l ih =>
    obtain ⟨a, b⟩ := p
    by_cases hp : a = k
    · rw [List.map_cons, show ((if ((a, b).1 == k) then ((k, v) : String × α)
        else (a, b))) = (k, v) by simp [hp]]
      rw [List.lookup_cons]
      simp
    · rw [List.map_cons, show ((if ((a, b).1 == k) then ((k, v) : String × α)
        else (a, b))) = (a, b) by simp [hp]]
      rw [List.lookup_cons]
      rw [show (k == a) = false by
        simp only [beq_eq_false_iff_ne]
        exact fun h => hp h.symm]
      apply ih
      simpa [show (a == k) = false by simp [hp]] using ha

theorem lookup_append_right_of_none {α : Type} (l : List (String × α))
    (k : String) (v : α) (h : l.lookup k = none) :
    (l ++ [(k, v)]).lookup k = some v := by
  induction l with
  | nil => simp [List.lookup_cons]
  | cons p l ih =>
    obtain ⟨a, b⟩ := p
    rw [List.lookup_cons] at h
    rw [List.cons_append, List.lookup_cons]
    cases hb : (k == a) with
    | true => rw [hb] at h; cases h
    | false =>
      rw [hb] at h
      exact ih h

theorem lookup_none_of_not_any {α : Type} (l : List (String × α))
    (k : String) (ha : l.any (fun p => p.1 == k) = false) :
    l.lookup k = none := by
  induction l with
  | nil => rfl
  | cons p l ih =>
    obtain ⟨a, b⟩ := p
    rw [List.any_cons] at ha
    have h1 : ((a, b).1 == k) = false := (Bool.or_eq_false_iff.mp ha).1
    have h2 := (Bool.or_eq_false_iff.mp ha).2
    rw [List.lookup_cons]
    rw [show (k == a) = false by
      simp only [beq_eq_false_iff_ne] at h1 ⊢
      exact fun h => h1 h.symm]
    exact ih h2

theorem lookup_setKey_self {α : Type} (l : List (String × α)) (k : String)
    (v : α) : (setKey l k v).lookup k = some v := by
  unfold setKey
  by_cases ha : l.any (fun p => p.1 == k) = true
  · rw [if_pos ha]
    exact lookup_setKey_self_of_any l k v ha
  · rw [if_neg ha]
    exact lookup_append_right_of_none l k v
      (lookup_none_of_not_any l k (Bool.eq_false_iff.mpr ha))

/-- The SSE events a fan-out loop writes: one per connection, with event ids
counting up from `base + 1` (the writing transport's counter before the
loop). -/
def sendsFrom (src : CounterSrc) (msg : JValue) : Nat → List Nat → List SSEWrite
  | _, [] => []
  | base, c :: cs => ⟨c, src, base + 1, msg⟩ :: sendsFrom src msg (base + 1) cs

/-- The proxy-side fan-out loop appends exactly `sendsFrom` events, advances
the proxy counter by the number of connections, and leaves the registry and
the front-end counter untouched. -/
theorem foldl_proxySend (msg : JValue) : ∀ (conns : List Nat) (w : World),
    (conns.foldl (fun w' c => proxySendSSEMessage w' c msg) w).sseWrites =
      w.sseWrites ++ sendsFrom CounterSrc.proxy msg w.proxyCounter conns ∧
    (conns.foldl (fun w' c => proxySendSSEMessage w' c msg) w).proxyCounter =
      w.proxyCounter + conns.length ∧
    (conns.foldl (fun w' c => proxySendSSEMessage w' c msg) w).httpCounter =
      w.httpCounter ∧
    (conns.foldl (fun w' c => proxySendSSEMessage w' c msg) w).sessions =
      w.sessions
  | [], w => by simp [sendsFrom]
  | c :: cs, w => by
    obtain ⟨h1, h2, h3, h4⟩ := foldl_proxySend msg cs (proxySendSSEMessage w c msg)
    refine ⟨?_, ?_, ?_, ?_⟩
    · rw [List.foldl_cons, h1]
      show (w.sseWrites ++ [⟨c, CounterSrc.proxy, w.proxyCounter + 1, msg⟩]) ++ _ = _
      rw [List.append_assoc]
      rfl
    · rw [List.foldl_cons, h2]
      show w.proxyCounter + 1 + cs.length = _
      simp [List.length_cons]
      omega
    · rw [List.foldl_cons, h3]
      rfl
    · rw [List.foldl_cons, h4]
      rfl

theorem setSessionInitialized_found (w : World) (sid : String)
    (s : SessionData) (hs : w.sessions.lookup sid = some s) :
    SessionManager.setSessionInitialized w sid =
      { w with sessions := setKey w.sessions sid { s with isInitialized := true } } := by
  simp only [SessionManager.setSessionInitialized, hs]

theorem queueMessage_found (w : World) (sid : String) (s : SessionData)
    (msg : JValue) (hs : w.sessions.lookup sid = some s)
    (hobj : isObjectLike msg = true) :
    SessionManager.queueMessage w sid msg =
      { w with sessions := (setKey w.sessions sid
          { s with messageQueue := s.messageQueue ++ [msg] }) } := by
  simp only [SessionManager.queueMessage, hs, hobj, if_true]

theorem getActiveSSEConnections_found (w : World) (sid : String)
    (s : SessionData) (hs : w.sessions.lookup sid = some s) :
    SessionManager.getActiveSSEConnections w sid = s.sseConnections := by
  simp only [SessionManager.getActiveSSEConnections, hs]

/-- C2 amended: a server-initiated message routed to a live session is
*always* appended to the session's queue — even when SSE streams are
attached — and simultaneously written to every attached stream through the
proxy core's transport; the queued copy remains to be flushed again by the
next attach's drain.  (`flag` is the initialize-response test's outcome; both
outcomes behave the same for queueing and fan-out.) -/
theorem routeProcessMessage_queues_and_fansOut (w : World) (sid : String)
    (msg : JValue) (s : SessionData) (flag : Bool)
    (hs : w.sessions.lookup sid = some s)
    (hobj : isObjectLike msg = true)
    (hik : MCPProxyServer.isInitializeResponseCheck msg = some flag) :
    ((MCPProxyServer.routeProcessMessage w sid msg).sessions.lookup sid).map
        SessionData.messageQueue = some (s.messageQueue ++ [msg]) ∧
    (MCPProxyServer.routeProcessMessage w sid msg).sseWrites =
      w.sseWrites ++ sendsFrom CounterSrc.proxy msg w.proxyCounter
        s.sseConnections ∧
    (MCPProxyServer.routeProcessMessage w sid msg).proxyCounter =
      w.proxyCounter + s.sseConnections.length := by
  have hhas : SessionManager.hasSession w sid = true := by
    simp [SessionManager.hasSession, hs]
  unfold MCPProxyServer.routeProcessMessage
  rw [hhas, hik]
  simp only [Bool.not_true, Bool.false_eq_true, if_false]
  cases flag with
  | false =>
    simp only [Bool.false_eq_true, if_false]
    rw [queueMessage_found w sid s msg hs hobj]
    rw [getActiveSSEConnections_found _ sid
      { s with messageQueue := s.messageQueue ++ [msg] }
      (lookup_setKey_self _ _ _)]
    obtain ⟨h1, h2, _, h4⟩ := foldl_proxySend msg s.sseConnections
      { w with sessions := (setKey w.sessions sid
          { s with messageQueue := s.messageQueue ++ [msg] }) }
    refine ⟨?_, h1, h2⟩
    rw [h4, lookup_setKey_self]
    rfl
  | true =>
    simp only [if_true]
    rw [setSessionInitialized_found w sid s hs]
    rw [queueMessage_found _ sid { s with isInitialized := true } msg
      (lookup_setKey_self _ _ _) hobj]
    rw [getActiveSSEConnections_found _ sid
      { s with isInitialized := true, messageQueue := s.messageQueue ++ [msg] }
      (by
        show (setKey (setKey w.sessions sid { s with isInitialized := true }) sid
          { s with isInitialized := true,
                   messageQueue := s.messageQueue ++ [msg] }).lookup sid = _
        rw [lookup_setKey_self])]
    obtain ⟨h1, h2, _, h4⟩ := foldl_proxySend msg s.sseConnections
      { w with sessions :=
          (setKey (setKey w.sessions sid { s with isInitialized := true }) sid
            { s with isInitialized := true,
                     messageQueue := s.messageQueue ++ [msg] }) }
    refine ⟨?_, h1, h2⟩
    rw [h4, lookup_setKey_self]
    rfl

/-- C2 amended witness: the notification arriving at `w1` (stream 7
attached) is both queued and written to stream 7. -/
theorem routeProcessMessage_queues_and_fansOut_witness :
    ((MCPProxyServer.routeProcessMessage w1 "s1"
        (noteMsg "notifications/a")).sessions.lookup "s1").map
      SessionData.messageQueue =
      some (sess1.messageQueue ++ [noteMsg "notifications/a"]) ∧
    (MCPProxyServer.routeProcessMessage w1 "s1"
        (noteMsg "notifications/a")).sseWrites =
      w1.sseWrites ++ sendsFrom CounterSrc.proxy (noteMsg "notifications/a")
        w1.proxyCounter sess1.sseConnections ∧
    (MCPProxyServer.routeProcessMessage w1 "s1"
        (noteMsg "notifications/a")).proxyCounter =
      w1.proxyCounter + sess1.sseConnections.length :=
  routeProcessMessage_queues_and_fansOut w1 "s1" (noteMsg "notifications/a")
    sess1 false rfl rfl rfl

/-! ### C5 (amended): per-transport-instance monotonicity -/

/-- The event ids written so far through one transport instance, in write
order. -/
def idsOfSrc (src : CounterSrc) (w : World) : List Nat :=
  (w.sseWrites.filter (fun e => e.src == src)).map SSEWrite.eid

/-- The `eventCounter` of the given transport instance. -/
def counterOf (src : CounterSrc) (w : World) : Nat :=
  match src with
  | .http => w.httpCounter
  | .proxy => w.proxyCounter

/-- Counter discipline: each transport instance's written ids are strictly
increasing and bounded by its current counter. -/
def WriteInv (w : World) : Prop :=
  ∀ src : CounterSrc, List.Pairwise (· < ·) (idsOfSrc src w) ∧
    ∀ i ∈ idsOfSrc src w, i ≤ counterOf src w

/-- Worlds agreeing on the write log and both counters share `WriteInv`. -/
theorem WriteInv.congr {w w' : World} (hw : w'.sseWrites = w.sseWrites)
    (hh : w'.httpCounter = w.httpCounter)
    (hp : w'.proxyCounter = w.proxyCounter) (h : WriteInv w) : WriteInv w' := by
  intro src
  have hids : idsOfSrc src w' = idsOfSrc src w := by
    unfold idsOfSrc
    rw [hw]
  have hcnt : counterOf src w' = counterOf src w := by
    cases src <;> simp [counterOf, hh, hp]
  rw [hids, hcnt]
  exact h src

theorem WriteInv.proxySend {w : World} (h : WriteInv w) (c : Nat)
    (msg : JValue) : WriteInv (proxySendSSEMessage w c msg) := by
  intro src
  obtain ⟨hpw, hbd⟩ := h src
  cases src with
  | http =>
    have hids : idsOfSrc CounterSrc.http (proxySendSSEMessage w c msg) =
        idsOfSrc CounterSrc.http w := by
      unfold idsOfSrc proxySendSSEMessage
      rw [List.filter_append, List.map_append]
      rw [show List.filter (fun e => e.src == CounterSrc.http)
        ([⟨c, CounterSrc.proxy, w.proxyCounter + 1, msg⟩] : List SSEWrite) =
        [] from rfl]
      simp
    rw [hids]
    exact ⟨hpw, fun i hi => hbd i hi⟩
  | proxy =>
    have hids : idsOfSrc CounterSrc.proxy (proxySendSSEMessage w c msg) =
        idsOfSrc CounterSrc.proxy w ++ [w.proxyCounter + 1] := by
      unfold idsOfSrc proxySendSSEMessage
      rw [List.filter_append, List.map_append]
      rw [show List.filter (fun e => e.src == CounterSrc.proxy)
        ([⟨c, CounterSrc.proxy, w.proxyCounter + 1, msg⟩] : List SSEWrite) =
        [⟨c, CounterSrc.proxy, w.proxyCounter + 1, msg⟩] from rfl]
      rfl
    rw [hids]
    constructor
    · rw [List.pairwise_append]
      refine ⟨hpw, by simp, ?_⟩
      intro a ha b hb
      rw [List.mem_singleton] at hb
      subst hb
      have hle := hbd a ha
      change a ≤ w.proxyCounter at hle
      omega
    · intro i hi
      change i ≤ w.proxyCounter + 1
      rw [List.mem_append] at hi
      rcases hi with hi | hi
      · have hle := hbd i hi
        change i ≤ w.proxyCounter at hle
        omega
      · rw [List.mem_singleton] at hi
        omega

theorem WriteInv.httpSend {w : World} (h : WriteInv w) (c : Nat)
    (msg : JValue) : WriteInv (httpSendSSEMessage w c msg) := by
  intro src
  obtain ⟨hpw, hbd⟩ := h src
  cases src with
  | proxy =>
    have hids : idsOfSrc CounterSrc.proxy (httpSendSSEMessage w c msg) =
        idsOfSrc CounterSrc.proxy w := by
      unfold idsOfSrc httpSendSSEMessage
      rw [List.filter_append, List.map_append]
      rw [show List.filter (fun e => e.src == CounterSrc.proxy)
        ([⟨c, CounterSrc.http, w.httpCounter + 1, msg⟩] : List SSEWrite) =
        [] from rfl]
      simp
    rw [hids]
    exact ⟨hpw, fun i hi => hbd i hi⟩
  | http =>
    have hids : idsOfSrc CounterSrc.http (httpSendSSEMessage w c msg) =
        idsOfSrc CounterSrc.http w ++ [w.httpCounter + 1] := by
      unfold idsOfSrc httpSendSSEMessage
      rw [List.filter_append, List.map_append]
      rw [show List.filter (fun e => e.src == CounterSrc.http)
        ([⟨c, CounterSrc.http, w.httpCounter + 1, msg⟩] : List SSEWrite) =
        [⟨c, CounterSrc.http, w.httpCounter + 1, msg⟩] from rfl]
      rfl
    rw [hids]
    constructor
    · rw [List.pairwise_append]
      refine ⟨hpw, by simp, ?_⟩
      intro a ha b hb
      rw [List.mem_singleton] at hb
      subst hb
      have hle := hbd a ha
      change a ≤ w.httpCounter at hle
      omega
    · intro i hi
      change i ≤ w.httpCounter + 1
      rw [List.mem_append] at hi
      rcases hi with hi | hi
      · have hle := hbd i hi
        change i ≤ w.httpCounter at hle
        omega
      · rw [List.mem_singleton] at hi
        omega

theorem WriteInv.proxySendFold {msg : JValue} : ∀ (conns : List Nat)
    (w : World), WriteInv w →
    WriteInv (conns.foldl (fun w' c => proxySendSSEMessage w' c msg) w)
  | [], _, h => h
  | c :: cs, w, h =>
    WriteInv.proxySendFold cs (proxySendSSEMessage w c msg) (h.proxySend c msg)

theorem WriteInv.httpSendFold {stream : Nat} : ∀ (msgs : List JValue)
    (w : World), WriteInv w →
    WriteInv (msgs.foldl (fun w' m => httpSendSSEMessage w' stream m) w)
  | [], _, h => h
  | m :: ms, w, h =>
    WriteInv.httpSendFold ms (httpSendSSEMessage w stream m) (h.httpSend stream m)

/-- Agreement on the write log and both transport counters. -/
def WEq (w' w : World) : Prop :=
  w'.sseWrites = w.sseWrites ∧ w'.httpCounter = w.httpCounter ∧
    w'.proxyCounter = w.proxyCounter

theorem weq_refl {w' w : World} (hw : w'.sseWrites = w.sseWrites)
    (hh : w'.httpCounter = w.httpCounter)
    (hp : w'.proxyCounter = w.proxyCounter) : WEq w' w := ⟨hw, hh, hp⟩

theorem WEq.trans {w1 w2 w3 : World} (h12 : WEq w1 w2) (h23 : WEq w2 w3) :
    WEq w1 w3 :=
  ⟨h12.1.trans h23.1, h12.2.1.trans h23.2.1, h12.2.2.trans h23.2.2⟩

theorem WriteInv.of_weq {w w' : World} (hw : WEq w' w) (h : WriteInv w) :
    WriteInv w' :=
  WriteInv.congr hw.1 hw.2.1 hw.2.2 h

theorem kill_weq (w : World) (pid : String) (h : ProcHandle) :
    WEq (ManagedProcess.kill w pid h) w := by
  unfold ManagedProcess.kill
  cases h.hasProcess <;> cases h.status <;> exact ⟨rfl, rfl, rfl⟩

theorem killProcess_weq (w : World) (pid : String) :
    WEq (ProcessManager.killProcess w pid) w := by
  unfold ProcessManager.killProcess
  cases hc : w.activeProcessIds.contains pid
  · exact ⟨rfl, rfl, rfl⟩
  · simp only [Bool.not_true, Bool.false_eq_true, if_false]
    cases hl : w.procObjects.lookup pid
    · exact ⟨rfl, rfl, rfl⟩
    · exact WEq.trans (weq_refl rfl rfl rfl) (kill_weq w pid _)

theorem destroyAux_weq (handler : World → String → World)
    (hhandler : ∀ w sid, WEq (handler w sid) w) (w : World) (sid : String) :
    WEq (destroyAux handler w sid) w := by
  unfold destroyAux
  cases hl : w.sessions.lookup sid
  · exact ⟨rfl, rfl, rfl⟩
  · exact WEq.trans (hhandler _ _) ⟨rfl, rfl, rfl⟩

theorem getAux_weq (handler : World → String → World)
    (hhandler : ∀ w sid, WEq (handler w sid) w) (w : World) (sid : String) :
    WEq (getAux handler w sid).2 w := by
  unfold getAux
  split
  · exact ⟨rfl, rfl, rfl⟩
  · split
    · exact destroyAux_weq handler hhandler w sid
    · exact ⟨rfl, rfl, rfl⟩

theorem onDestroyedAux_weq (handler : World → String → World)
    (hhandler : ∀ w sid, WEq (handler w sid) w) (w : World) (sid : String) :
    WEq (onDestroyedAux handler w sid) w := by
  have h1 := getAux_weq handler hhandler w sid
  unfold onDestroyedAux
  split
  next s w' heq =>
    rw [heq] at h1
    split
    next pid _ => exact WEq.trans (killProcess_weq w' pid) h1
    next _ => exact h1
  next w' heq =>
    rw [heq] at h1
    exact h1

theorem smOps_weq (n : Nat) :
    (∀ w sid, WEq ((smOps n).destroySession w sid) w) ∧
    (∀ w sid, WEq ((smOps n).getSession w sid).2 w) ∧
    (∀ w sid, WEq ((smOps n).onSessionDestroyed w sid) w) := by
  induction n with
  | zero =>
    exact ⟨fun w _ => ⟨rfl, rfl, rfl⟩, fun w _ => ⟨rfl, rfl, rfl⟩,
      fun w _ => ⟨rfl, rfl, rfl⟩⟩
  | succ m ih =>
    refine ⟨?_, ?_, ?_⟩
    · exact destroyAux_weq _ ih.2.2
    · exact getAux_weq _ ih.2.2
    · exact onDestroyedAux_weq _ ih.2.2

theorem destroySession_weq (w : World) (sid : String) :
    WEq (SessionManager.destroySession w sid) w :=
  (smOps_weq 2).1 w sid

theorem getSession_weq (w : World) (sid : String) :
    WEq (SessionManager.getSession w sid).2 w :=
  (smOps_weq 2).2.1 w sid

theorem setSessionInitialized_weq (w : World) (sid : String) :
    WEq (SessionManager.setSessionInitialized w sid) w := by
  unfold SessionManager.setSessionInitialized
  cases w.sessions.lookup sid <;> exact ⟨rfl, rfl, rfl⟩

theorem queueMessage_weq (w : World) (sid : String) (msg : JValue) :
    WEq (SessionManager.queueMessage w sid msg) w := by
  unfold SessionManager.queueMessage
  cases w.sessions.lookup sid
  · exact ⟨rfl, rfl, rfl⟩
  · cases isObjectLike msg
    · exact ⟨rfl, rfl, rfl⟩
    · exact ⟨rfl, rfl, rfl⟩

theorem addSSEConnection_weq (w : World) (sid : String) (stream : Nat) :
    WEq (SessionManager.addSSEConnection w sid stream) w := by
  unfold SessionManager.addSSEConnection
  split
  · split
    · exact ⟨rfl, rfl, rfl⟩
    · exact ⟨rfl, rfl, rfl⟩
  · exact ⟨rfl, rfl, rfl⟩

theorem dequeueMessages_weq (w : World) (sid : String) :
    WEq (SessionManager.dequeueMessages w sid).2 w := by
  unfold SessionManager.dequeueMessages
  cases w.sessions.lookup sid <;> exact ⟨rfl, rfl, rfl⟩

theorem routeProcessMessage_writeInv (w : World) (sid : String) (msg : JValue)
    (h : WriteInv w) :
    WriteInv (MCPProxyServer.routeProcessMessage w sid msg) := by
  unfold MCPProxyServer.routeProcessMessage
  cases hh : SessionManager.hasSession w sid with
  | false => simpa [hh] using h
  | true =>
    simp only [hh, Bool.not_true, Bool.false_eq_true, if_false]
    cases hik : MCPProxyServer.isInitializeResponseCheck msg with
    | none => exact h
    | some flag =>
      apply WriteInv.proxySendFold
      apply WriteInv.of_weq (queueMessage_weq _ sid msg)
      cases flag with
      | false => simpa using h
      | true =>
        simp only [if_true]
        exact WriteInv.of_weq (setSessionInitialized_weq w sid) h

theorem handleProcessOutput_writeInv (w : World) (pid : String) (line : JValue)
    (h : WriteInv w) :
    WriteInv (MCPProxyServer.handleProcessOutput w pid line) := by
  unfold MCPProxyServer.handleProcessOutput
  cases JSONRPCMessageSchema line
  · simpa using h
  · simp only [if_true]
    cases MCPProxyServer.findSessionByProcessId w pid
    · exact h
    · exact routeProcessMessage_writeInv w _ line h

theorem handleSSERequest_writeInv (w : World) (streamId : Nat)
    (accept? : Option String) (sid? : Option String) (h : WriteInv w) :
    WriteInv (HTTPServer.handleSSERequest w streamId accept? sid?).2 := by
  unfold HTTPServer.handleSSERequest
  cases acceptsSSEHeader accept?
  · simpa using h
  · simp only [Bool.not_true, Bool.false_eq_true, if_false]
    split
    · exact h
    next sid =>
      split
      next w2 heq =>
        have h1 := getSession_weq w sid
        rw [heq] at h1
        exact WriteInv.of_weq h1 h
      next s w2 heq =>
        have h1 := getSession_weq w sid
        rw [heq] at h1
        have h2 : WriteInv (SessionManager.addSSEConnection w2 sid streamId) :=
          WriteInv.of_weq (addSSEConnection_weq w2 sid streamId)
            (WriteInv.of_weq h1 h)
        have h3 := dequeueMessages_weq
          (SessionManager.addSSEConnection w2 sid streamId) sid
        rcases hd : SessionManager.dequeueMessages
          (SessionManager.addSSEConnection w2 sid streamId) sid with ⟨queued, w3⟩
        rw [hd] at h3
        exact WriteInv.httpSendFold queued w3 (WriteInv.of_weq h3 h2)

theorem handleDeleteSession_writeInv (w : World) (sid? : Option String)
    (h : WriteInv w) :
    WriteInv (HTTPServer.handleDeleteSession w sid?).2 := by
  unfold HTTPServer.handleDeleteSession
  cases sid? with
  | none => exact h
  | some sid => exact WriteInv.of_weq (destroySession_weq w sid) h

theorem stepOp_writeInv (w : World) (op : Op) (h : WriteInv w) :
    WriteInv (stepOp w op) := by
  cases op with
  | subprocessLine pid line => exact handleProcessOutput_writeInv w pid line h
  | sseAttach streamId sid? =>
    exact handleSSERequest_writeInv w streamId (some "text/event-stream") sid? h
  | deleteSession sid? => exact handleDeleteSession_writeInv w sid? h

theorem runOps_writeInv : ∀ (ops : List Op) (w : World), WriteInv w →
    WriteInv (runOps ops w)
  | [], _, h => h
  | op :: ops, w, h => runOps_writeInv ops (stepOp w op) (stepOp_writeInv w op h)

/-- C5 amended: starting from a clean write log, the event ids any single
stream receives *from one transport instance* (the HTTP front-end's, which
writes the queue drain at attach, or the proxy core's, which writes the live
pushes) are strictly monotonically increasing over any trace of subprocess
output, SSE attaches and deletes — although the combined per-stream sequence
need not be (see `stream_event_ids_not_monotone`). -/
theorem per_transport_event_ids_monotone (ops : List Op) (w0 : World)
    (h0 : w0.sseWrites = []) (stream : Nat) (src : CounterSrc) :
    List.Pairwise (· < ·)
      ((((runOps ops w0).sseWrites.filter (fun e => e.src == src)).filter
        (fun e => e.stream == stream)).map SSEWrite.eid) := by
  have hinv0 : WriteInv w0 := by
    intro s
    unfold idsOfSrc
    rw [h0]
    exact ⟨List.Pairwise.nil, by simp⟩
  have hinv := runOps_writeInv ops w0 hinv0
  have hsrc := (hinv src).1
  have hsub : ((((runOps ops w0).sseWrites.filter (fun e => e.src == src)).filter
      (fun e => e.stream == stream)).map SSEWrite.eid).Sublist
      (idsOfSrc src (runOps ops w0)) := by
    unfold idsOfSrc
    exact (List.filter_sublist _).map SSEWrite.eid
  exact List.Pairwise.sublist hsub hsrc

/-- C5 amended witness: over the counterexample trace from `w2`, the ids
stream 3 receives from the HTTP front-end's transport alone are strictly
increasing. -/
theorem per_transport_event_ids_monotone_witness :
    w2.sseWrites = [] ∧
    List.Pairwise (· < ·)
      ((((runOps [.subprocessLine "session-s1" (noteMsg "n1"),
          .subprocessLine "session-s1" (noteMsg "n2"),
          .sseAttach 3 (some "s1"),
          .subprocessLine "session-s1" (noteMsg "n3")] w2).sseWrites.filter
            (fun e => e.src == CounterSrc.http)).filter
        (fun e => e.stream == 3)).map SSEWrite.eid) :=
  ⟨Eq.refl _, per_transport_event_ids_monotone
    [.subprocessLine "session-s1" (noteMsg "n1"),
     .subprocessLine "session-s1" (noteMsg "n2"),
     .sseAttach 3 (some "s1"),
     .subprocessLine "session-s1" (noteMsg "n3")] w2 (Eq.refl _) 3
    CounterSrc.http⟩

end MCPProxy
